import Mathlib

/-!
# Target selection: the "until newest running" waiting strategy

A shallow embedding of `pkg/devspace/services/targetselector/until_newest_running.go`.

Conventions of the embedding

* A Go pointer is an `Option`; `none` is `nil`.  Dereferencing `nil` is the
  run-time panic `Panic.nilDereference`, and a function that can panic returns
  in `Except Panic`.
* `time.Time` is an `Int` (nanoseconds), `time.Duration` an `Int` of nanoseconds.
  Every `time.Now()` read made by a call is an input of the call (`Clock`).
* The logger is an output: every call returns the lines it logged.
* The mutex of `PodInfoPrinter` serialises the report calls; a report call is
  one atomic state transition here.
-/

namespace targetselector

/-! ## Data model (Kubernetes API types, reduced to the fields the code reads) -/

/-- The run-time panics of the embedded code. -/
inductive Panic where
  | nilDereference
  | indexOutOfRange
  deriving DecidableEq, Repr

structure ContainerStateWaiting where
  Reason : String
  deriving DecidableEq, Repr

structure ContainerStateRunning where
  StartedAt : Int
  deriving DecidableEq, Repr

structure ContainerStateTerminated where
  ExitCode : Int
  Reason : String
  deriving DecidableEq, Repr

structure ContainerState where
  Waiting : Option ContainerStateWaiting
  Running : Option ContainerStateRunning
  Terminated : Option ContainerStateTerminated
  deriving DecidableEq, Repr

structure ContainerStatus where
  Name : String
  State : ContainerState
  deriving DecidableEq, Repr

structure PersistentVolumeClaimVolumeSource where
  ClaimName : String
  deriving DecidableEq, Repr

structure Volume where
  Name : String
  PersistentVolumeClaim : Option PersistentVolumeClaimVolumeSource
  deriving DecidableEq, Repr

structure PodSpec where
  Volumes : List Volume
  deriving DecidableEq, Repr

structure PodStatus where
  Phase : String
  Reason : String
  InitContainerStatuses : List ContainerStatus
  ContainerStatuses : List ContainerStatus
  deriving DecidableEq, Repr

/-- A `v1.Pod`.  `CreationTimestamp` is the creation time in Unix seconds,
`DeletionTimestamp` is a pointer. -/
structure Pod where
  Name : String
  Namespace : String
  UID : String
  CreationTimestamp : Int
  DeletionTimestamp : Option Int
  Spec : PodSpec
  Status : PodStatus
  deriving DecidableEq, Repr

structure Container where
  Name : String
  deriving DecidableEq, Repr

/-- The pair `selector.SelectedPodContainer`: both fields are pointers. -/
structure SelectedPodContainer where
  Pod : Option Pod
  Container : Option Container
  deriving DecidableEq, Repr

structure ObjectReference where
  Kind : String
  Name : String
  UID : String
  deriving DecidableEq, Repr

/-- A `v1.Event`.  `Type_` is the Go field `Type`; `CreationTimestamp` is
`CreationTimestamp.Unix()`. -/
structure Event where
  Name : String
  Type_ : String
  InvolvedObject : ObjectReference
  Message : String
  Reason : String
  CreationTimestamp : Int
  deriving DecidableEq, Repr

structure relevantObject where
  Kind : String
  Name : String
  UID : String
  deriving DecidableEq, Repr

/-! ## Collaborators -/

/-- The two members of package `kubectl` the selector reads, `GetPodStatus`
and the table `CriticalStatus` (a Go `map[string]bool`: an absent key reads
`false`).  Their code is outside the embedded file, so they are parameters. -/
structure Kubectl where
  GetPodStatus : Pod → String
  CriticalStatus : String → Bool

/-- Identity of a `kubectl.Client` handle. -/
abbrev Client := Nat

/-- What `client.KubeClient().CoreV1().Events(namespace).List(...)` answers at
one instant: the error text, or `events.Items`. -/
abbrev EventQuery := Client → String → Except String (List Event)

inductive Level where
  | Debug
  | Info
  | Warn
  deriving DecidableEq, Repr

/-- One line handed to the logger. -/
structure LogLine where
  level : Level
  msg : String
  deriving DecidableEq, Repr

/-- The `time.Now()` reads of one call, in program order: `now` at the entry of
`SelectPod` / `SelectContainer`, `since` inside `time.Since(u.lastWarning)`,
`stamp` the value stored into `lastWarning`. -/
structure Clock where
  now : Int
  since : Int
  stamp : Int
  deriving DecidableEq, Repr

/-- The constant `time.Second`, in nanoseconds. -/
def Second : Int := 1000000000

/-! ## `sort.Slice`

Go sorts a short slice by insertion sort:

    for i := a + 1; i < b; i++ {
      for j := i; j > a && less(j, j-1); j-- { data.Swap(j, j-1) }
    }

The embedding is this loop.  It is the whole of `sort.Slice` for slices of at
most twelve elements from Go 1.19 on, and of at most six elements before
(where seven to twelve elements get one shell-sort pass first).  For longer
slices the library uses a quicksort variant.  Every variant returns a
permutation of the slice that is sorted by `less` and compares every element
of a slice of two or more; the variants differ only in the order they give
elements that compare equal.  The claims below that are about slices of any
length do not fix that order; a claim that fixes it is stated for at most
twelve elements.  -/

/-- The inner loop: element `x` (at index `i`) moves left past every element it
is `less` than.  `left` is `data[a..i)` read from index `i-1` down to `a`; the
result is `data[a..i]` read the same way. -/
def sink {α : Type} (less : α → α → Bool) (x : α) : List α → List α
  | [] => [x]
  | p :: left => if less x p then p :: sink less x left else x :: p :: left

/-- The outer loop: `todo` is `data[i..b)`, `done` is `data[a..i)` read from
right to left. -/
def sortLoop {α : Type} (less : α → α → Bool) : List α → List α → List α
  | [], done => done.reverse
  | x :: todo, done => sortLoop less todo (sink less x done)

/-- The call `sort.Slice(data, less)` with a comparator that cannot panic. -/
def sortSlice {α : Type} (less : α → α → Bool) (data : List α) : List α :=
  sortLoop less data []

/-- The inner loop for a comparator that may panic. -/
def sinkE {α : Type} (less : α → α → Except Panic Bool) (x : α) :
    List α → Except Panic (List α)
  | [] => .ok [x]
  | p :: left =>
    match less x p with
    | .error e => .error e
    | .ok false => .ok (x :: p :: left)
    | .ok true =>
      match sinkE less x left with
      | .error e => .error e
      | .ok moved => .ok (p :: moved)

/-- The outer loop for a comparator that may panic. -/
def sortLoopE {α : Type} (less : α → α → Except Panic Bool) :
    List α → List α → Except Panic (List α)
  | [], done => .ok done.reverse
  | x :: todo, done =>
    match sinkE less x done with
    | .error e => .error e
    | .ok done1 => sortLoopE less todo done1

/-- The call `sort.Slice(data, less)` with a comparator that may panic. -/
def sortSliceE {α : Type} (less : α → α → Except Panic Bool) (data : List α) :
    Except Panic (List α) :=
  sortLoopE less data []

/-! ## Helpers of other packages of the repository -/

/-- Modelled from the spec: `selector.SortPodsByNewest(pods, i, j)`, whose code
is not in the embedded file.  "Pods are ordered by creation timestamp, most
recent first": element `i` goes before element `j` when it was created later.
Reading the timestamp of a nil Pod panics. -/
def SortPodsByNewest : Option Pod → Option Pod → Except Panic Bool
  | some pi, some pj => .ok (decide (pi.CreationTimestamp > pj.CreationTimestamp))
  | _, _ => .error Panic.nilDereference

/-- Modelled from the spec: `selector.SortContainersByNewest(containers, i, j)`,
whose code is not in the embedded file.  "Multi-container candidates are ordered
by the creation timestamp of their owning Pod."  A nil pair or a nil Pod
panics. -/
def SortContainersByNewest :
    Option SelectedPodContainer → Option SelectedPodContainer → Except Panic Bool
  | some ci, some cj =>
    match ci.Pod, cj.Pod with
    | some pi, some pj => .ok (decide (pi.CreationTimestamp > pj.CreationTimestamp))
    | _, _ => .error Panic.nilDereference
  | _, _ => .error Panic.nilDereference

/-- Modelled from the spec: `stringutil.Contains(filter, name)`, whose code is
not in the embedded file: "its name is already present in `alreadyShown`". -/
def Contains (filter : List String) (name : String) : Bool :=
  filter.contains name

/-- Go's `strings.TrimPrefix(s, pre)`: `s` without the leading `pre` when `s`
starts with it, `s` itself otherwise. -/
def TrimPrefix (s pre : String) : String :=
  if pre.data.isPrefixOf s.data then String.mk (s.data.drop pre.data.length) else s

/-! ## The embedded file -/

/-- Go: `eventMatches(event, objects)`. -/
def eventMatches (event : Event) : List relevantObject → Bool
  | [] => false
  | o :: objects =>
    if o.Name ≠ "" ∧ event.InvolvedObject.Name ≠ o.Name then eventMatches event objects
    else if o.Kind ≠ "" ∧ event.InvolvedObject.Kind ≠ o.Kind then eventMatches event objects
    else if o.UID ≠ "" ∧ event.InvolvedObject.UID ≠ o.UID then eventMatches event objects
    else true

/-- One of the two `for _, cs := range ...` loops of `IsContainerRunning`:
`.ok true` when the loop returns true, `.ok false` when it runs to its end.
The condition reads `container.Container.Name`, which panics on a nil
Container. -/
def scanStatuses (container : Option Container) :
    List ContainerStatus → Except Panic Bool
  | [] => .ok false
  | cs :: rest =>
    match container with
    | none => .error Panic.nilDereference
    | some c =>
      if cs.Name = c.Name ∧ cs.State.Running ≠ none then .ok true
      else scanStatuses container rest

/-- Go: `IsContainerRunning(container)`. -/
def IsContainerRunning : Option SelectedPodContainer → Except Panic Bool
  | none => .error Panic.nilDereference
  | some container =>
    match container.Pod with
    | none => .error Panic.nilDereference
    | some pod =>
      if pod.DeletionTimestamp ≠ none then .ok false
      else
        match scanStatuses container.Container pod.Status.InitContainerStatuses with
        | .error e => .error e
        | .ok true => .ok true
        | .ok false =>
          match scanStatuses container.Container pod.Status.ContainerStatuses with
          | .error e => .error e
          | .ok true => .ok true
          | .ok false => .ok false

/-- Go: `HasPodProblem(pod)`, for a non-nil pod. -/
def HasPodProblem (k : Kubectl) (pod : Pod) : Bool :=
  let status := k.GetPodStatus pod
  let status := TrimPrefix status "Init:"
  k.CriticalStatus status

/-- The loop `for _, v := range pod.Spec.Volumes` of `relevantObjectsFromPod`:
the objects it appends. -/
def claimObjects : List Volume → List relevantObject
  | [] => []
  | v :: rest =>
    match v.PersistentVolumeClaim with
    | some pvc => ⟨"PersistentVolumeClaim", pvc.ClaimName, ""⟩ :: claimObjects rest
    | none => claimObjects rest

/-- Go: `relevantObjectsFromPod(pod)`, for a non-nil pod. -/
def relevantObjectsFromPod (pod : Pod) : List relevantObject :=
  ⟨"Pod", pod.Name, pod.UID⟩ :: claimObjects pod.Spec.Volumes

/-- The line `log.Warnf("%s %s: %s (%s)", ...)` of `displayWarnings`. -/
def eventLine (event : Event) : LogLine :=
  ⟨Level.Warn, event.InvolvedObject.Kind ++ " " ++ event.InvolvedObject.Name ++ ": "
    ++ event.Message ++ " (" ++ event.Reason ++ ")"⟩

/-- The loop `for _, event := range events.Items` of `displayWarnings`: the
final `filter` and the lines logged. -/
def displayLoop (relevantObjects : List relevantObject) :
    List Event → List String → List String × List LogLine
  | [], filter => (filter, [])
  | event :: rest, filter =>
    if event.Type_ ≠ "Warning" then displayLoop relevantObjects rest filter
    else if Contains filter event.Name then displayLoop relevantObjects rest filter
    else if ¬ eventMatches event relevantObjects then displayLoop relevantObjects rest filter
    else
      let r := displayLoop relevantObjects rest (filter ++ [event.Name])
      (r.1, eventLine event :: r.2)

/-- Go: `displayWarnings(relevantObjects, namespace, client, filter, log)`; `q`
is the answer of the cluster to the list call.  The returned `nil` slice of the
error branch is the empty list. -/
def displayWarnings (relevantObjects : List relevantObject) (namespace_ : String)
    (client : Client) (q : EventQuery) (filter : List String) :
    List String × List LogLine :=
  match q client namespace_ with
  | .error err => ([], [⟨Level.Debug, "Error retrieving pod events: " ++ err⟩])
  | .ok items =>
    displayLoop relevantObjects
      (sortSlice (fun ei ej => decide (ei.CreationTimestamp > ej.CreationTimestamp)) items)
      filter

/-- Go: `type PodInfoPrinter struct` (the mutex apart). -/
structure PodInfoPrinter where
  lastWarning : Int
  namespace_ : String
  client : Client
  shownEvents : List String
  deriving DecidableEq, Repr

/-- The cooldown test `time.Since(u.lastWarning) > time.Second*10`, evaluated
at the clock reading `since`. -/
def cooldownOver (u : PodInfoPrinter) (since : Int) : Bool :=
  decide (since - u.lastWarning > Second * 10)

/-- Go: `(*PodInfoPrinter).PrintPodInfo(pod, log)`, for a non-nil pod. -/
def PrintPodInfo (k : Kubectl) (q : EventQuery) (u : PodInfoPrinter) (clk : Clock)
    (pod : Pod) : PodInfoPrinter × List LogLine :=
  if cooldownOver u clk.since then
    let status := k.GetPodStatus pod
    let line : LogLine :=
      ⟨Level.Info, "DevSpace is waiting, because Pod " ++ pod.Name ++ " has status: " ++ status⟩
    let r := displayWarnings (relevantObjectsFromPod pod) pod.Namespace u.client q u.shownEvents
    ({ u with shownEvents := r.1, lastWarning := clk.stamp }, line :: r.2)
  else (u, [])

/-- The three kinds `PrintNotFoundWarning` passes to `displayWarnings`. -/
def ownerKinds : List relevantObject :=
  [⟨"StatefulSet", "", ""⟩, ⟨"Deployment", "", ""⟩, ⟨"ReplicaSet", "", ""⟩]

/-- Go: `(*PodInfoPrinter).PrintNotFoundWarning(log)`. -/
def PrintNotFoundWarning (q : EventQuery) (u : PodInfoPrinter) (clk : Clock) :
    PodInfoPrinter × List LogLine :=
  if cooldownOver u clk.since then
    let line : LogLine :=
      ⟨Level.Warn, "DevSpace still couldn't find any Pods that match the selector. "
        ++ "DevSpace will continue waiting, but this operation might timeout"⟩
    let r := displayWarnings ownerKinds u.namespace_ u.client q u.shownEvents
    ({ u with shownEvents := r.1, lastWarning := clk.stamp }, line :: r.2)
  else (u, [])

/-- Go: `(*PodInfoPrinter).PrintPodWarning(pod, log)`, for a non-nil pod. -/
def PrintPodWarning (k : Kubectl) (u : PodInfoPrinter) (clk : Clock) (pod : Pod) :
    PodInfoPrinter × List LogLine :=
  if cooldownOver u clk.since then
    let status := k.GetPodStatus pod
    let line : LogLine :=
      ⟨Level.Warn, "Pod " ++ pod.Name ++ " has critical status: " ++ status
        ++ ". DevSpace will continue waiting, but this operation might timeout"⟩
    ({ u with lastWarning := clk.stamp }, [line])
  else (u, [])

/-- Go: `type untilNewestRunning struct`; `initialDelay` is the deadline. -/
structure untilNewestRunning where
  initialDelay : Int
  podInfoPrinter : PodInfoPrinter
  deriving DecidableEq, Repr

/-- Go: `NewUntilNewestRunningWaitingStrategy(initialDelay, client, namespace)`;
`t0` and `t1` are its two `time.Now()` reads, in program order. -/
def NewUntilNewestRunningWaitingStrategy (t0 t1 : Int) (initialDelay : Int)
    (client : Client) (namespace_ : String) : untilNewestRunning :=
  { initialDelay := t0 + initialDelay
    podInfoPrinter :=
      { lastWarning := t1 + initialDelay
        namespace_ := namespace_
        client := client
        shownEvents := [] } }

/-- What a selection call that returns leaves behind: the three results
`(found, target, err)`, the strategy, the caller's slice (sorted in place) and
the lines logged. -/
structure Returned (α : Type) where
  found : Bool
  target : Option α
  err : Option String
  strategy : untilNewestRunning
  slice : List (Option α)
  log : List LogLine

/-- Go: `(*untilNewestRunning).SelectPod(pods, log)`. -/
def SelectPod (k : Kubectl) (q : EventQuery) (u : untilNewestRunning) (clk : Clock)
    (pods : List (Option Pod)) : Except Panic (Returned Pod) :=
  if clk.now < u.initialDelay then
    .ok ⟨false, none, none, u, pods, []⟩
  else if pods.length = 0 then
    let r := PrintNotFoundWarning q u.podInfoPrinter clk
    .ok ⟨false, none, none, { u with podInfoPrinter := r.1 }, pods, r.2⟩
  else
    match sortSliceE SortPodsByNewest pods with
    | .error e => .error e
    | .ok sorted =>
      match sorted with
      | [] => .error Panic.indexOutOfRange
      -- `HasPodProblem(nil)`: `kubectl.GetPodStatus` reads the status of a nil Pod
      | none :: _ => .error Panic.nilDereference
      | some pod :: _ =>
        if HasPodProblem k pod then
          let r := PrintPodWarning k u.podInfoPrinter clk pod
          .ok ⟨false, none, none, { u with podInfoPrinter := r.1 }, sorted, r.2⟩
        else if k.GetPodStatus pod ≠ "Running" then
          let r := PrintPodInfo k q u.podInfoPrinter clk pod
          .ok ⟨false, none, none, { u with podInfoPrinter := r.1 }, sorted, r.2⟩
        else
          .ok ⟨true, some pod, none, u, sorted, []⟩

/-- Go: `(*untilNewestRunning).SelectContainer(containers, log)`. -/
def SelectContainer (k : Kubectl) (q : EventQuery) (u : untilNewestRunning) (clk : Clock)
    (containers : List (Option SelectedPodContainer)) :
    Except Panic (Returned SelectedPodContainer) :=
  if clk.now < u.initialDelay then
    .ok ⟨false, none, none, u, containers, []⟩
  else if containers.length = 0 then
    let r := PrintNotFoundWarning q u.podInfoPrinter clk
    .ok ⟨false, none, none, { u with podInfoPrinter := r.1 }, containers, r.2⟩
  else
    match sortSliceE SortContainersByNewest containers with
    | .error e => .error e
    | .ok sorted =>
      match sorted with
      | [] => .error Panic.indexOutOfRange
      -- `containers[0].Pod` on a nil pair
      | none :: _ => .error Panic.nilDereference
      | some c :: _ =>
        match c.Pod with
        -- `HasPodProblem(nil)`: `kubectl.GetPodStatus` reads the status of a nil Pod
        | none => .error Panic.nilDereference
        | some pod =>
          if HasPodProblem k pod then
            let r := PrintPodWarning k u.podInfoPrinter clk pod
            .ok ⟨false, none, none, { u with podInfoPrinter := r.1 }, sorted, r.2⟩
          else
            match IsContainerRunning (some c) with
            | .error e => .error e
            | .ok false =>
              let r := PrintPodInfo k q u.podInfoPrinter clk pod
              .ok ⟨false, none, none, { u with podInfoPrinter := r.1 }, sorted, r.2⟩
            | .ok true => .ok ⟨true, some c, none, u, sorted, []⟩

/-! ## Candidates without nil pointers -/

/-- The order `SelectPod` leaves a slice of non-nil pods in: `sort.Slice` with
the comparison of `SortPodsByNewest`. -/
def rankPods (pods : List Pod) : List Pod :=
  sortSlice (fun pi pj => decide (pi.CreationTimestamp > pj.CreationTimestamp)) pods

/-- A non-nil pair whose Pod and Container are non-nil. -/
def candidate (c : Pod × Container) : Option SelectedPodContainer :=
  some ⟨some c.1, some c.2⟩

/-- The order `SelectContainer` leaves a slice of such pairs in: `sort.Slice`
with the comparison of `SortContainersByNewest`. -/
def rankContainers (cs : List (Pod × Container)) : List (Pod × Container) :=
  sortSlice (fun ci cj => decide (ci.1.CreationTimestamp > cj.1.CreationTimestamp)) cs

/-- A non-nil pair whose Pod is non-nil; its Container may be nil. -/
def pairOf (c : Pod × Option Container) : Option SelectedPodContainer :=
  some ⟨some c.1, c.2⟩

/-- The order `SelectContainer` leaves a slice of such pairs in, for slices
short enough for `sort.Slice` to be the insertion sort. -/
def rankPairs (cs : List (Pod × Option Container)) : List (Pod × Option Container) :=
  sortSlice (fun ci cj => decide (ci.1.CreationTimestamp > cj.1.CreationTimestamp)) cs

/-- The results `(found, target)` of `SelectPod` at or after the deadline, read
off the pods alone: the classification of the first pod of the sorted slice. -/
def podVerdict (k : Kubectl) (pods : List Pod) : Bool × Option Pod :=
  match rankPods pods with
  | [] => (false, none)
  | top :: _ =>
    if HasPodProblem k top then (false, none)
    else if k.GetPodStatus top ≠ "Running" then (false, none)
    else (true, some top)

/-- A candidate of `SelectContainer` that is nil or whose Pod is nil. -/
def nilCandidate (c : Option SelectedPodContainer) : Prop :=
  c = none ∨ ∃ x, c = some ⟨none, x⟩

/-! ## Sequences of report calls on one printer -/

/-- The entry point of a report call and its pod. -/
inductive Report where
  | podInfo (pod : Pod)
  | notFound
  | podWarning (pod : Pod)

/-- One report call: the entry point, the clock reads of the call and what the
cluster answers to an event query made by the call. -/
structure ReportCall where
  report : Report
  clk : Clock
  q : EventQuery

/-- One report call on the printer `u`: the printer afterwards and the lines
logged. -/
def runReport (k : Kubectl) (u : PodInfoPrinter) (c : ReportCall) :
    PodInfoPrinter × List LogLine :=
  match c.report with
  | Report.podInfo pod => PrintPodInfo k c.q u c.clk pod
  | Report.notFound => PrintNotFoundWarning c.q u c.clk
  | Report.podWarning pod => PrintPodWarning k u c.clk pod

/-- The report calls `calls`, one after the other, on the printer `u`: for each
call the printer after it and the lines it logged. -/
def runReports (k : Kubectl) : PodInfoPrinter → List ReportCall →
    List (PodInfoPrinter × List LogLine)
  | _, [] => []
  | u, c :: rest => runReport k u c :: runReports k (runReport k u c).1 rest

/-! ## Sample collaborators, for evaluating the definitions on concrete inputs -/

/-- A sample `kubectl`: the status of a pod is its phase; the critical statuses
are those the devspace table lists. -/
def sampleKubectl : Kubectl where
  GetPodStatus := fun pod => pod.Status.Phase
  CriticalStatus := fun s =>
    ["Error", "Unknown", "ImagePullBackOff", "CrashLoopBackOff", "RunContainerError",
      "ErrImagePull", "CreateContainerConfigError", "InvalidImageName"].contains s

/-- A sample pod: name, creation time and phase are given, every list is empty. -/
def samplePod (name : String) (created : Int) (phase : String) : Pod :=
  { Name := name, Namespace := "default", UID := "uid-" ++ name
    CreationTimestamp := created, DeletionTimestamp := none
    Spec := ⟨[]⟩, Status := ⟨phase, "", [], []⟩ }

/-- A running container status of name `name`. -/
def runningStatus (name : String) : ContainerStatus :=
  ⟨name, ⟨none, some ⟨0⟩, none⟩⟩

/-- The sample pod with one regular container status, running, of name `app`. -/
def samplePodWithApp (name : String) (created : Int) (phase : String) : Pod :=
  { samplePod name created phase with
    Status := ⟨phase, "", [], [runningStatus "app"]⟩ }

/-- A strategy built at time 0 with an initial delay of 5 seconds, for client 7
and namespace `default`. -/
def sampleStrategy : untilNewestRunning :=
  NewUntilNewestRunningWaitingStrategy 0 0 (5 * Second) 7 "default"

/-- A call whose three clock reads all return second `t`. -/
def atSecond (t : Int) : Clock := ⟨t * Second, t * Second, t * Second⟩

/-- A cluster without events. -/
def noEvents : EventQuery := fun _ _ => .ok []

/-- A cluster whose event list call fails. -/
def failingQuery : EventQuery := fun _ _ => .error "connection refused"

/-- Three report calls, at seconds 16, 18 and 27. -/
def sampleCalls : List ReportCall :=
  [⟨Report.notFound, atSecond 16, noEvents⟩,
   ⟨Report.podInfo (samplePod "web-1" 100 "Pending"), atSecond 18, failingQuery⟩,
   ⟨Report.podWarning (samplePod "web-1" 100 "CrashLoopBackOff"), atSecond 27, noEvents⟩]

/-- The line `PrintPodInfo` logs first. -/
def statusLine (k : Kubectl) (pod : Pod) : LogLine :=
  ⟨Level.Info, "DevSpace is waiting, because Pod " ++ pod.Name ++ " has status: "
    ++ k.GetPodStatus pod⟩

/-! ## The specification of `DisplayWarnings`, for comparison with the code -/

/-- The events the specification has `DisplayWarnings` log, in the words of
the specification: walking `events` in order, an event is logged when its Type
is `Warning`, its name is not in `alreadyShown`, its name is not that of an
event logged earlier in the same call (`earlier`), and it matches
`relevantObjects`. -/
def warningsToLog (relevantObjects : List relevantObject) (alreadyShown : List String) :
    List Event → List Event → List Event
  | [], _ => []
  | e :: rest, earlier =>
    if e.Type_ = "Warning" ∧ e.Name ∉ alreadyShown ∧ e.Name ∉ earlier.map (fun d => d.Name)
        ∧ eventMatches e relevantObjects = true then
      e :: warningsToLog relevantObjects alreadyShown rest (earlier ++ [e])
    else warningsToLog relevantObjects alreadyShown rest earlier

/-- The read `m[key]` of a Go `map[string]bool` written as the list of its
entries: the value of the entry of that key, `false` when the map has none. -/
def mapRead (m : List (String × Bool)) (key : String) : Bool :=
  match m.lookup key with
  | some b => b
  | none => false

/-! ## More samples -/

/-- A warning event of name `name` about the sample pod `web-1`. -/
def sampleWarning (name : String) (created : Int) : Event :=
  ⟨name, "Warning", ⟨"Pod", "web-1", "uid-web-1"⟩, "Back-off restarting failed container",
    "BackOff", created⟩

/-- A cluster whose only event is the warning `evt-1`. -/
def warningQuery : EventQuery := fun _ _ => .ok [sampleWarning "evt-1" 50]

/-- `events.Items` after the `sort.Slice` call of `displayWarnings`. -/
def sortedEvents (items : List Event) : List Event :=
  sortSlice (fun ei ej => decide (ei.CreationTimestamp > ej.CreationTimestamp)) items

/-- Five events about the pod `web-1`, oldest first: a warning already shown, a
warning `evt-2`, an event of type `Normal`, and two warnings of name `evt-1`. -/
def sampleItems : List Event :=
  [sampleWarning "evt-0" 5, sampleWarning "evt-2" 10,
   { sampleWarning "evt-3" 20 with Type_ := "Normal" },
   sampleWarning "evt-1" 40, sampleWarning "evt-1" 50]

/-- Three `PrintPodInfo` calls for the pod `web-1`, at seconds 11, 22 and 33:
the event list call of the second fails, those of the first and the third
return the warning `evt-1`. -/
def resetCalls : List ReportCall :=
  [⟨Report.podInfo (samplePod "web-1" 100 "Pending"), atSecond 11, warningQuery⟩,
   ⟨Report.podInfo (samplePod "web-1" 100 "Pending"), atSecond 22, failingQuery⟩,
   ⟨Report.podInfo (samplePod "web-1" 100 "Pending"), atSecond 33, warningQuery⟩]

/-- A cluster whose events are `sampleItems`. -/
def itemsQuery : EventQuery := fun _ _ => .ok sampleItems

/-- A pod whose status has the reason `reason`. -/
def reasonPod (name reason : String) : Pod :=
  { samplePod name 100 "Pending" with Status := ⟨"Pending", reason, [], []⟩ }

/-- The pending pod `web-1` with two volumes: the claim `data`, and a volume
without a claim. -/
def samplePodWithClaim : Pod :=
  { samplePod "web-1" 100 "Pending" with
    Spec := ⟨[⟨"storage", some ⟨"data"⟩⟩, ⟨"tmp", none⟩]⟩ }

/-- The pending pod `web-1` with an empty UID. -/
def podWithoutUID : Pod :=
  { samplePod "web-1" 100 "Pending" with UID := "" }

/-- A warning about a pod of name `web-1` whose UID is `uid-of-another-pod`. -/
def strangerWarning : Event :=
  ⟨"evt-9", "Warning", ⟨"Pod", "web-1", "uid-of-another-pod"⟩, "Failed to pull image",
    "Failed", 60⟩

/-- A printer whose `lastWarning` is 0 and that has shown the event names
`shown`. -/
def samplePrinter (shown : List String) : PodInfoPrinter :=
  ⟨0, "default", 7, shown⟩

/-- A sample `kubectl` whose status helper reads the `Reason` of the pod
status and whose table is that of `sampleKubectl`. -/
def reasonKubectl : Kubectl where
  GetPodStatus := fun pod => pod.Status.Reason
  CriticalStatus := sampleKubectl.CriticalStatus

/-- Three pods of equal creation time; the first is pending, the others are
running. -/
def tiedPods : List Pod :=
  [samplePod "a" 100 "Pending", samplePod "b" 100 "Running", samplePod "c" 100 "Running"]

/-- Two running pods of different creation times, the older first. -/
def agedPods : List Pod :=
  [samplePod "old" 50 "Running", samplePod "new" 100 "Running"]

end targetselector

/-! # Deployment configuration: `NewKubectlDeployment`

A shallow embedding of `NewKubectlDeployment` of
`pkg/devspace/configure/deployment.go`.  A Go string is a Lean `String`, so it
is a sequence of Unicode characters. -/

namespace configure

/-- Go: `unicode.IsSpace(r)`: the characters with the Unicode property
White_Space. -/
def isSpace (c : Char) : Bool :=
  let n := c.toNat
  (9 ≤ n && n ≤ 13) || n == 32 || n == 0x85 || n == 0xA0 || n == 0x1680
    || (0x2000 ≤ n && n ≤ 0x200a) || n == 0x2028 || n == 0x2029 || n == 0x202f
    || n == 0x205f || n == 0x3000

/-- Go: `strings.TrimSpace(s)`: `s` without its leading and its trailing white
space. -/
def TrimSpace (s : String) : String :=
  String.mk ((s.data.dropWhile isSpace).reverse.dropWhile isSpace).reverse

/-- The pieces of a sequence of characters between the occurrences of `sep`. -/
def splitChars (sep : Char) : List Char → List (List Char)
  | [] => [[]]
  | c :: rest =>
    if c = sep then [] :: splitChars sep rest
    else
      match splitChars sep rest with
      | [] => [[c]]
      | piece :: pieces => (c :: piece) :: pieces

/-- Go: `strings.Split(s, sep)` for a separator of one character: the
substrings between the separators, `[s]` when `s` has none. -/
def Split (s : String) (sep : Char) : List String :=
  (splitChars sep s.data).map String.mk

/-- Go: `latest.KubectlConfig`, reduced to the field the function sets. -/
structure KubectlConfig where
  Manifests : List String
  deriving DecidableEq, Repr

/-- Go: `latest.DeploymentConfig`, reduced to the fields the function sets;
the other fields keep their zero value. -/
structure DeploymentConfig where
  Name : String
  Kubectl : Option KubectlConfig
  deriving DecidableEq, Repr

/-- The loop `for _, s := range splitted` of `NewKubectlDeployment`;
`splittedPointer` is the slice built so far. -/
def trimLoop : List String → List String → List String
  | [], splittedPointer => splittedPointer
  | s :: rest, splittedPointer => trimLoop rest (splittedPointer ++ [TrimSpace s])

/-- Go: `(*manager).NewKubectlDeployment(name, manifests)`: the returned
pointer and the returned error. -/
def NewKubectlDeployment (name manifests : String) :
    Option DeploymentConfig × Option String :=
  let splitted := Split manifests ','
  let splittedPointer := trimLoop splitted []
  (some { Name := name, Kubectl := some { Manifests := splittedPointer } }, none)

end configure

namespace targetselector

/-! ## Facts about `sort.Slice` -/

theorem sink_perm {α : Type} (less : α → α → Bool) (x : α) (l : List α) :
    (sink less x l).Perm (x :: l) := by
  induction l with
  | nil => simp [sink]
  | cons p left ih =>
    unfold sink
    split
    · exact (List.Perm.cons p ih).trans (List.Perm.swap x p left)
    · exact List.Perm.refl _

theorem sortLoop_perm {α : Type} (less : α → α → Bool) (todo done : List α) :
    (sortLoop less todo done).Perm (done.reverse ++ todo) := by
  induction todo generalizing done with
  | nil => simp [sortLoop]
  | cons x todo ih =>
    unfold sortLoop
    refine (ih (sink less x done)).trans ?_
    have h1 : (sink less x done).reverse.Perm (x :: done) :=
      (List.reverse_perm _).trans (sink_perm less x done)
    have h2 : (done.reverse ++ x :: todo).Perm (x :: done ++ todo) := by
      have : (done.reverse ++ [x]).Perm (x :: done) := by
        simpa using (List.reverse_perm (x :: done))
      simpa using List.Perm.append_right todo this
    exact (List.Perm.append_right todo h1).trans h2.symm

theorem sortSlice_perm {α : Type} (less : α → α → Bool) (data : List α) :
    (sortSlice less data).Perm data := by
  simpa [sortSlice] using sortLoop_perm less data []

theorem sink_sorted {α : Type} (key : α → Int) (x : α) (l : List α)
    (h : l.Pairwise (fun a b => key a ≤ key b)) :
    (sink (fun a b => decide (key a > key b)) x l).Pairwise (fun a b => key a ≤ key b) := by
  induction l with
  | nil => simp [sink]
  | cons p left ih =>
    rw [List.pairwise_cons] at h
    unfold sink
    split
    · rename_i hlt
      have hlt1 : key p < key x := by simpa using hlt
      rw [List.pairwise_cons]
      refine ⟨?_, ih h.2⟩
      intro b hb
      rcases List.mem_cons.mp ((List.Perm.mem_iff (sink_perm _ x left)).mp hb) with hb1 | hb1
      · subst hb1
        omega
      · exact h.1 b hb1
    · rename_i hlt
      have hle : key x ≤ key p := by simpa using hlt
      rw [List.pairwise_cons]
      refine ⟨?_, List.pairwise_cons.mpr h⟩
      intro b hb
      rcases List.mem_cons.mp hb with hb1 | hb1
      · subst hb1; exact hle
      · exact le_trans hle (h.1 b hb1)

theorem sortLoop_sorted {α : Type} (key : α → Int) (todo done : List α)
    (h : done.Pairwise (fun a b => key a ≤ key b)) :
    (sortLoop (fun a b => decide (key a > key b)) todo done).Pairwise
      (fun a b => key b ≤ key a) := by
  induction todo generalizing done with
  | nil => simpa [sortLoop, List.pairwise_reverse] using h
  | cons x todo ih =>
    unfold sortLoop
    exact ih _ (sink_sorted key x done h)

theorem sortSlice_sorted {α : Type} (key : α → Int) (data : List α) :
    (sortSlice (fun a b => decide (key a > key b)) data).Pairwise
      (fun a b => key b ≤ key a) := by
  simpa [sortSlice] using sortLoop_sorted key data [] List.Pairwise.nil

/-- The head of the sorted slice is an element of the input with the largest key. -/
theorem sortSlice_head {α : Type} (key : α → Int) (data : List α) (top : α) (rest : List α)
    (h : sortSlice (fun a b => decide (key a > key b)) data = top :: rest) :
    top ∈ data ∧ ∀ x ∈ data, key x ≤ key top := by
  have hp := sortSlice_perm (fun a b => decide (key a > key b)) data
  have hs := sortSlice_sorted key data
  rw [h] at hp hs
  refine ⟨hp.mem_iff.mp (List.mem_cons_self _ _), ?_⟩
  intro x hx
  rcases List.mem_cons.mp (hp.mem_iff.mpr hx) with h1 | h1
  · subst h1; exact le_refl _
  · exact (List.pairwise_cons.mp hs).1 x h1

theorem sortSlice_ne_nil {α : Type} (less : α → α → Bool) (data : List α) (h : data ≠ []) :
    sortSlice less data ≠ [] := by
  intro h0
  have hp := sortSlice_perm less data
  rw [h0] at hp
  exact h (List.Perm.nil_eq hp).symm

/-- On elements for which the comparator does not panic, the panicking loop
computes what the plain loop computes. -/
theorem sinkE_map {α β : Type} (f : β → α) (lessE : α → α → Except Panic Bool)
    (less : β → β → Bool) (hf : ∀ a b, lessE (f a) (f b) = .ok (less a b))
    (x : β) (l : List β) :
    sinkE lessE (f x) (l.map f) = .ok ((sink less x l).map f) := by
  induction l with
  | nil => simp [sinkE, sink]
  | cons p left ih =>
    simp only [List.map_cons, sinkE, sink, hf]
    cases hl : less x p
    · simp
    · simp [ih]

theorem sortLoopE_map {α β : Type} (f : β → α) (lessE : α → α → Except Panic Bool)
    (less : β → β → Bool) (hf : ∀ a b, lessE (f a) (f b) = .ok (less a b))
    (todo done : List β) :
    sortLoopE lessE (todo.map f) (done.map f) = .ok ((sortLoop less todo done).map f) := by
  induction todo generalizing done with
  | nil => simp [sortLoopE, sortLoop]
  | cons x todo ih =>
    simp only [List.map_cons, sortLoopE, sortLoop, sinkE_map f lessE less hf]
    exact ih _

theorem sortSliceE_map {α β : Type} (f : β → α) (lessE : α → α → Except Panic Bool)
    (less : β → β → Bool) (hf : ∀ a b, lessE (f a) (f b) = .ok (less a b))
    (data : List β) :
    sortSliceE lessE (data.map f) = .ok ((sortSlice less data).map f) := by
  simpa [sortSliceE, sortSlice] using sortLoopE_map f lessE less hf data []


theorem sinkE_perm {α : Type} (lessE : α → α → Except Panic Bool) (x : α) (l r : List α)
    (h : sinkE lessE x l = .ok r) : r.Perm (x :: l) := by
  induction l generalizing r with
  | nil =>
    simp only [sinkE, Except.ok.injEq] at h
    subst h; exact List.Perm.refl _
  | cons p left ih =>
    unfold sinkE at h
    split at h
    · cases h
    · simp only [Except.ok.injEq] at h
      subst h; exact List.Perm.refl _
    · split at h
      · cases h
      · rename_i moved hm
        simp only [Except.ok.injEq] at h
        subst h
        exact (List.Perm.cons p (ih moved hm)).trans (List.Perm.swap x p left)

/-- A first comparison that returns compared two elements the comparator accepts. -/
theorem sinkE_first {α : Type} (lessE : α → α → Except Panic Bool) (bad : α → Prop)
    (hbad : ∀ a b, bad a ∨ bad b → lessE a b = .error Panic.nilDereference)
    (x p : α) (left r : List α) (h : sinkE lessE x (p :: left) = .ok r) :
    ¬ bad x ∧ ¬ bad p := by
  by_contra hc
  have hb : bad x ∨ bad p := by
    by_cases hx : bad x
    · exact Or.inl hx
    · exact Or.inr (by_contra fun hp => hc ⟨hx, hp⟩)
  unfold sinkE at h
  rw [hbad x p hb] at h
  cases h

theorem sortLoopE_good {α : Type} (lessE : α → α → Except Panic Bool) (bad : α → Prop)
    (hbad : ∀ a b, bad a ∨ bad b → lessE a b = .error Panic.nilDereference)
    (todo done r : List α) (h : sortLoopE lessE todo done = .ok r)
    (hinv : done.length ≤ 1 ∨ ∀ y ∈ done, ¬ bad y) :
    r.Perm (done.reverse ++ todo) ∧ (r.length ≤ 1 ∨ ∀ y ∈ r, ¬ bad y) := by
  induction todo generalizing done with
  | nil =>
    simp only [sortLoopE, Except.ok.injEq] at h
    subst h
    refine ⟨by simp, ?_⟩
    rcases hinv with h1 | h1
    · left; simpa using h1
    · right; intro y hy; exact h1 y (List.mem_reverse.mp hy)
  | cons x todo ih =>
    unfold sortLoopE at h
    split at h
    · cases h
    · rename_i done1 hd
      have hp1 := sinkE_perm lessE x done done1 hd
      have hinv1 : done1.length ≤ 1 ∨ ∀ y ∈ done1, ¬ bad y := by
        cases done with
        | nil =>
          left
          have := hp1.length_eq
          simp at this; omega
        | cons p left =>
          right
          have hxp := sinkE_first lessE bad hbad x p left done1 hd
          intro y hy
          rcases List.mem_cons.mp (hp1.mem_iff.mp hy) with h2 | h2
          · subst h2; exact hxp.1
          · rcases List.mem_cons.mp h2 with h3 | h3
            · subst h3; exact hxp.2
            · rcases hinv with h4 | h4
              · simp at h4
                subst h4
                simp at h3
              · exact h4 y (List.mem_cons_of_mem _ h3)
      obtain ⟨hp, hg⟩ := ih done1 h hinv1
      refine ⟨hp.trans ?_, hg⟩
      have h5 : (done1.reverse).Perm (done.reverse ++ [x]) :=
        (List.reverse_perm _).trans (hp1.trans (by simpa using (List.reverse_perm (x :: done)).symm))
      simpa using List.Perm.append_right todo h5

theorem sortLoopE_error {α : Type} (lessE : α → α → Except Panic Bool) (e0 : Panic)
    (hk : ∀ a b e, lessE a b = .error e → e = e0) :
    (∀ (x : α) (l : List α) (e : Panic), sinkE lessE x l = .error e → e = e0) ∧
    (∀ (todo done : List α) (e : Panic), sortLoopE lessE todo done = .error e → e = e0) := by
  have h1 : ∀ (x : α) (l : List α) (e : Panic), sinkE lessE x l = .error e → e = e0 := by
    intro x l
    induction l with
    | nil => intro e h; simp [sinkE] at h
    | cons p left ih =>
      intro e h
      unfold sinkE at h
      split at h
      · rename_i e1 he1
        simp only [Except.error.injEq] at h
        subst h
        exact hk x p _ he1
      · cases h
      · split at h
        · rename_i e1 he1
          simp only [Except.error.injEq] at h
          subst h
          exact ih _ he1
        · cases h
  refine ⟨h1, ?_⟩
  intro todo
  induction todo with
  | nil => intro done e h; simp [sortLoopE] at h
  | cons x todo ih =>
    intro done e h
    unfold sortLoopE at h
    split at h
    · rename_i e1 he1
      simp only [Except.error.injEq] at h
      subst h
      exact h1 x done _ he1
    · exact ih _ e h

/-- `sort.Slice` over at least two elements compares every one of them: when the
comparator panics on some element of the slice, the sort panics. -/
theorem sortSliceE_panics {α : Type} (lessE : α → α → Except Panic Bool) (bad : α → Prop)
    (hbad : ∀ a b, bad a ∨ bad b → lessE a b = .error Panic.nilDereference)
    (hk : ∀ a b e, lessE a b = .error e → e = Panic.nilDereference)
    (data : List α) (hlen : 2 ≤ data.length) (y : α) (hy : y ∈ data) (hby : bad y) :
    sortSliceE lessE data = .error Panic.nilDereference := by
  cases hr : sortSliceE lessE data with
  | error e =>
    rw [(sortLoopE_error lessE Panic.nilDereference hk).2 data [] e hr]
  | ok r =>
    exfalso
    obtain ⟨hp, hg⟩ := sortLoopE_good lessE bad hbad data [] r hr (Or.inl (by simp))
    simp only [List.reverse_nil, List.nil_append] at hp
    rcases hg with h1 | h1
    · have := hp.length_eq
      omega
    · exact h1 y (hp.mem_iff.mpr hy) hby

/-! ## The selection calls on candidates without nil pointers -/

theorem sortPods_some (pods : List Pod) :
    sortSliceE SortPodsByNewest (pods.map some) = .ok ((rankPods pods).map some) :=
  sortSliceE_map some SortPodsByNewest _ (fun _ _ => rfl) pods

theorem sortContainers_candidate (cs : List (Pod × Container)) :
    sortSliceE SortContainersByNewest (cs.map candidate)
      = .ok ((rankContainers cs).map candidate) :=
  sortSliceE_map candidate SortContainersByNewest _ (fun _ _ => rfl) cs

/-- What `SelectPod` does after the deadline with the head `top` of the sorted
slice. -/
theorem SelectPod_ranked (k : Kubectl) (q : EventQuery) (u : untilNewestRunning) (clk : Clock)
    (pods : List Pod) (top : Pod) (rest : List Pod)
    (hnow : u.initialDelay ≤ clk.now) (hr : rankPods pods = top :: rest) :
    SelectPod k q u clk (pods.map some) =
      if HasPodProblem k top then
        .ok ⟨false, none, none,
          { u with podInfoPrinter := (PrintPodWarning k u.podInfoPrinter clk top).1 },
          (top :: rest).map some, (PrintPodWarning k u.podInfoPrinter clk top).2⟩
      else if k.GetPodStatus top ≠ "Running" then
        .ok ⟨false, none, none,
          { u with podInfoPrinter := (PrintPodInfo k q u.podInfoPrinter clk top).1 },
          (top :: rest).map some, (PrintPodInfo k q u.podInfoPrinter clk top).2⟩
      else .ok ⟨true, some top, none, u, (top :: rest).map some, []⟩ := by
  have hne : pods ≠ [] := by
    intro h0
    rw [h0] at hr
    simp [rankPods, sortSlice, sortLoop] at hr
  unfold SelectPod
  rw [if_neg (not_lt.mpr hnow), if_neg (by simpa using hne), sortPods_some, hr]
  rfl

theorem scanStatuses_some (c : Container) (l : List ContainerStatus) :
    ∃ b, scanStatuses (some c) l = .ok b ∧
      (b = true ↔ ∃ cs ∈ l, cs.Name = c.Name ∧ cs.State.Running ≠ none) := by
  induction l with
  | nil => exact ⟨false, rfl, by simp⟩
  | cons cs rest ih =>
    by_cases h : cs.Name = c.Name ∧ cs.State.Running ≠ none
    · refine ⟨true, by simp [scanStatuses, h], ?_⟩
      simp only [true_iff]
      exact ⟨cs, List.mem_cons_self _ _, h⟩
    · obtain ⟨b, hb, hiff⟩ := ih
      refine ⟨b, by simp only [scanStatuses, if_neg h, hb], ?_⟩
      rw [hiff]
      constructor
      · rintro ⟨x, hx, hx2⟩
        exact ⟨x, List.mem_cons_of_mem _ hx, hx2⟩
      · rintro ⟨x, hx, hx2⟩
        rcases List.mem_cons.mp hx with h1 | h1
        · subst h1; exact absurd hx2 h
        · exact ⟨x, h1, hx2⟩

/-- `IsContainerRunning` on a pair without nil pointers returns, and returns
true exactly for a pod without deletion timestamp with a running entry of the
container's name. -/
theorem IsContainerRunning_candidate (pod : Pod) (c : Container) :
    ∃ b, IsContainerRunning (candidate (pod, c)) = .ok b ∧
      (b = true ↔ pod.DeletionTimestamp = none ∧
        ∃ cs ∈ pod.Status.InitContainerStatuses ++ pod.Status.ContainerStatuses,
          cs.Name = c.Name ∧ cs.State.Running ≠ none) := by
  obtain ⟨b1, hb1, hiff1⟩ := scanStatuses_some c pod.Status.InitContainerStatuses
  obtain ⟨b2, hb2, hiff2⟩ := scanStatuses_some c pod.Status.ContainerStatuses
  by_cases hd : pod.DeletionTimestamp = none
  · cases b1 with
    | true =>
      refine ⟨true, by simp [IsContainerRunning, candidate, hd, hb1], ?_⟩
      simp only [true_iff]
      obtain ⟨cs, hcs, h2⟩ := hiff1.mp rfl
      exact ⟨hd, cs, List.mem_append_left _ hcs, h2⟩
    | false =>
      have hno1 : ¬ ∃ cs ∈ pod.Status.InitContainerStatuses,
          cs.Name = c.Name ∧ cs.State.Running ≠ none := fun h => by
        have := hiff1.mpr h
        cases this
      refine ⟨b2, ?_, ?_⟩
      · cases b2 <;> simp [IsContainerRunning, candidate, hd, hb1, hb2]
      · rw [hiff2]
        constructor
        · rintro ⟨cs, hcs, h2⟩
          exact ⟨hd, cs, List.mem_append_right _ hcs, h2⟩
        · rintro ⟨_, cs, hcs, h2⟩
          rcases List.mem_append.mp hcs with h3 | h3
          · exact absurd ⟨cs, h3, h2⟩ hno1
          · exact ⟨cs, h3, h2⟩
  · refine ⟨false, by simp [IsContainerRunning, candidate, hd], ?_⟩
    constructor
    · intro h; cases h
    · rintro ⟨h, _⟩; exact absurd h hd

/-- What `SelectContainer` does after the deadline with the head `top` of the
sorted slice. -/
theorem SelectContainer_ranked (k : Kubectl) (q : EventQuery) (u : untilNewestRunning)
    (clk : Clock) (cs : List (Pod × Container)) (top : Pod × Container)
    (rest : List (Pod × Container))
    (hnow : u.initialDelay ≤ clk.now) (hr : rankContainers cs = top :: rest) :
    SelectContainer k q u clk (cs.map candidate) =
      if HasPodProblem k top.1 then
        .ok ⟨false, none, none,
          { u with podInfoPrinter := (PrintPodWarning k u.podInfoPrinter clk top.1).1 },
          (top :: rest).map candidate, (PrintPodWarning k u.podInfoPrinter clk top.1).2⟩
      else
        match IsContainerRunning (candidate top) with
        | .error e => .error e
        | .ok false =>
          .ok ⟨false, none, none,
            { u with podInfoPrinter := (PrintPodInfo k q u.podInfoPrinter clk top.1).1 },
            (top :: rest).map candidate, (PrintPodInfo k q u.podInfoPrinter clk top.1).2⟩
        | .ok true => .ok ⟨true, candidate top, none, u, (top :: rest).map candidate, []⟩ := by
  have hne : cs ≠ [] := by
    intro h0
    rw [h0] at hr
    simp [rankContainers, sortSlice, sortLoop] at hr
  unfold SelectContainer
  rw [if_neg (not_lt.mpr hnow), if_neg (by simpa using hne), sortContainers_candidate, hr]
  rfl

theorem rankPods_head (pods : List Pod) (hp : pods ≠ []) :
    ∃ top rest, rankPods pods = top :: rest ∧ top ∈ pods ∧
      ∀ p ∈ pods, p.CreationTimestamp ≤ top.CreationTimestamp := by
  cases hr : rankPods pods with
  | nil => exact absurd hr (sortSlice_ne_nil _ pods hp)
  | cons top rest =>
    exact ⟨top, rest, rfl, sortSlice_head (fun p : Pod => p.CreationTimestamp) pods top rest hr⟩

theorem rankContainers_head (cs : List (Pod × Container)) (hc : cs ≠ []) :
    ∃ top rest, rankContainers cs = top :: rest ∧ top ∈ cs ∧
      ∀ c ∈ cs, c.1.CreationTimestamp ≤ top.1.CreationTimestamp := by
  cases hr : rankContainers cs with
  | nil => exact absurd hr (sortSlice_ne_nil _ cs hc)
  | cons top rest =>
    exact ⟨top, rest, rfl,
      sortSlice_head (fun c : Pod × Container => c.1.CreationTimestamp) cs top rest hr⟩

theorem SelectPod_found (k : Kubectl) (q : EventQuery) (u : untilNewestRunning) (clk : Clock)
    (pods : List (Option Pod)) (r : Returned Pod)
    (h : SelectPod k q u clk pods = .ok r) (hf : r.found = true) :
    u.initialDelay ≤ clk.now ∧ pods ≠ [] := by
  unfold SelectPod at h
  by_cases h1 : clk.now < u.initialDelay
  · rw [if_pos h1] at h
    cases h
    cases hf
  · rw [if_neg h1] at h
    by_cases h2 : pods.length = 0
    · rw [if_pos h2] at h
      cases h
      cases hf
    · exact ⟨not_lt.mp h1, fun h0 => h2 (by simp [h0])⟩

theorem SelectContainer_found (k : Kubectl) (q : EventQuery) (u : untilNewestRunning)
    (clk : Clock) (cs : List (Option SelectedPodContainer)) (r : Returned SelectedPodContainer)
    (h : SelectContainer k q u clk cs = .ok r) (hf : r.found = true) :
    u.initialDelay ≤ clk.now ∧ cs ≠ [] := by
  unfold SelectContainer at h
  by_cases h1 : clk.now < u.initialDelay
  · rw [if_pos h1] at h
    cases h
    cases hf
  · rw [if_neg h1] at h
    by_cases h2 : cs.length = 0
    · rw [if_pos h2] at h
      cases h
      cases hf
    · exact ⟨not_lt.mp h1, fun h0 => h2 (by simp [h0])⟩

theorem SelectPod_early (k : Kubectl) (q : EventQuery) (u : untilNewestRunning)
    (clk : Clock) (pods : List (Option Pod)) (h : clk.now < u.initialDelay) :
    SelectPod k q u clk pods = .ok ⟨false, none, none, u, pods, []⟩ := by
  unfold SelectPod; rw [if_pos h]

theorem SelectContainer_early (k : Kubectl) (q : EventQuery) (u : untilNewestRunning)
    (clk : Clock) (containers : List (Option SelectedPodContainer))
    (h : clk.now < u.initialDelay) :
    SelectContainer k q u clk containers = .ok ⟨false, none, none, u, containers, []⟩ := by
  unfold SelectContainer; rw [if_pos h]

/-! ## The claims -/

/-- C1 (initial delay).  Whatever the candidates are, nil pointers and a running
newest candidate included, a call of `SelectPod` or `SelectContainer` whose
clock reading is before the deadline `u.initialDelay` returns
`(false, nil, nil)`, logs nothing, and leaves the strategy (so the printer
with `lastWarning` and `shownEvents`) and the caller's slice as they were. -/
theorem C1_before_deadline_not_found (k : Kubectl) (q : EventQuery) (u : untilNewestRunning)
    (clk : Clock) (pods : List (Option Pod)) (containers : List (Option SelectedPodContainer))
    (h : clk.now < u.initialDelay) :
    SelectPod k q u clk pods = .ok ⟨false, none, none, u, pods, []⟩ ∧
    SelectContainer k q u clk containers = .ok ⟨false, none, none, u, containers, []⟩ := by
  exact ⟨SelectPod_early k q u clk pods h, SelectContainer_early k q u clk containers h⟩

theorem C1_before_deadline_not_found_witness :
    (atSecond 1).now < sampleStrategy.initialDelay ∧
    (SelectPod sampleKubectl noEvents sampleStrategy (atSecond 1)
        [some (samplePod "web-1" 100 "Running"), none]
      = .ok ⟨false, none, none, sampleStrategy,
          [some (samplePod "web-1" 100 "Running"), none], []⟩ ∧
     SelectContainer sampleKubectl noEvents sampleStrategy (atSecond 1)
        [candidate (samplePodWithApp "web-1" 100 "Running", ⟨"app"⟩)]
      = .ok ⟨false, none, none, sampleStrategy,
          [candidate (samplePodWithApp "web-1" 100 "Running", ⟨"app"⟩)], []⟩) :=
  ⟨by decide, C1_before_deadline_not_found _ _ _ _ _ _ (by decide)⟩

/-! ## Pairs whose Container may be nil -/

theorem sortPairs_pairOf (cs : List (Pod × Option Container)) :
    sortSliceE SortContainersByNewest (cs.map pairOf) = .ok ((rankPairs cs).map pairOf) :=
  sortSliceE_map pairOf SortContainersByNewest _ (fun _ _ => rfl) cs

theorem SelectContainer_rankedPairs (k : Kubectl) (q : EventQuery) (u : untilNewestRunning)
    (clk : Clock) (cs : List (Pod × Option Container)) (top : Pod × Option Container)
    (rest : List (Pod × Option Container))
    (hnow : u.initialDelay ≤ clk.now) (hne : cs ≠ [])
    (hs : sortSliceE SortContainersByNewest (cs.map pairOf) = .ok ((top :: rest).map pairOf)) :
    SelectContainer k q u clk (cs.map pairOf) =
      if HasPodProblem k top.1 then
        .ok ⟨false, none, none,
          { u with podInfoPrinter := (PrintPodWarning k u.podInfoPrinter clk top.1).1 },
          (top :: rest).map pairOf, (PrintPodWarning k u.podInfoPrinter clk top.1).2⟩
      else
        match IsContainerRunning (pairOf top) with
        | .error e => .error e
        | .ok false =>
          .ok ⟨false, none, none,
            { u with podInfoPrinter := (PrintPodInfo k q u.podInfoPrinter clk top.1).1 },
            (top :: rest).map pairOf, (PrintPodInfo k q u.podInfoPrinter clk top.1).2⟩
        | .ok true => .ok ⟨true, pairOf top, none, u, (top :: rest).map pairOf, []⟩ := by
  unfold SelectContainer
  rw [if_neg (not_lt.mpr hnow), if_neg (by simpa using hne), hs]
  rfl

theorem rankPairs_head (cs : List (Pod × Option Container)) (hc : cs ≠ []) :
    ∃ top rest, rankPairs cs = top :: rest ∧ top ∈ cs ∧
      ∀ c ∈ cs, c.1.CreationTimestamp ≤ top.1.CreationTimestamp := by
  cases hr : rankPairs cs with
  | nil => exact absurd hr (sortSlice_ne_nil _ cs hc)
  | cons top rest =>
    exact ⟨top, rest, rfl,
      sortSlice_head (fun c : Pod × Option Container => c.1.CreationTimestamp) cs top rest hr⟩

/-- `IsContainerRunning` returns on a pair whose Pod and Container are not
nil. -/
theorem IsContainerRunning_returns (top : Pod × Option Container) (h : top.2 ≠ none) :
    ∃ b, IsContainerRunning (pairOf top) = .ok b := by
  obtain ⟨pod, c⟩ := top
  cases c with
  | none => exact absurd rfl h
  | some c =>
    obtain ⟨b, hb, _⟩ := IsContainerRunning_candidate pod c
    exact ⟨b, hb⟩

/-- C2 (a running newest candidate is selected).  For non-empty lists of
candidates (non-nil Pods for `SelectPod`; non-nil pairs with a non-nil Pod for
`SelectContainer`, the Container may be nil), evaluated at or after the
deadline, there is a candidate `top` of the list, with the latest creation
time, that is the first element of the slice as the call sorts it and decides
the call.  `SelectPod` returns, with `found` true exactly
when `top` is not critical and has status `"Running"`, and then the target is
`top` and the error is nil.  `SelectContainer` returns `(true, top, nil)` when
`top` is not critical and `IsContainerRunning` is true of it; a call that
returns has `found` true only in that case; and the call returns whenever the
Container of `top` is not nil.  For any clock and any list, a call that
returns `found = true` was made at or after the deadline on a non-empty
list. -/
theorem C2_found_iff_newest_running (k : Kubectl) (q : EventQuery) (u : untilNewestRunning)
    (clk : Clock) (pods : List Pod) (cs : List (Pod × Option Container))
    (hnow : u.initialDelay ≤ clk.now) (hp : pods ≠ []) (hc : cs ≠ []) :
    (∃ top r, top ∈ pods ∧
        (∀ p ∈ pods, p.CreationTimestamp ≤ top.CreationTimestamp) ∧
        SelectPod k q u clk (pods.map some) = .ok r ∧
        r.slice.head? = some (some top) ∧
        (r.found = true ↔ HasPodProblem k top = false ∧ k.GetPodStatus top = "Running") ∧
        (r.found = true → r.target = some top ∧ r.err = none)) ∧
    (∃ top, top ∈ cs ∧
        (∀ c ∈ cs, c.1.CreationTimestamp ≤ top.1.CreationTimestamp) ∧
        (HasPodProblem k top.1 = false → IsContainerRunning (pairOf top) = .ok true →
          ∃ r, SelectContainer k q u clk (cs.map pairOf) = .ok r ∧
            r.found = true ∧ r.target = pairOf top ∧ r.err = none) ∧
        (∀ r, SelectContainer k q u clk (cs.map pairOf) = .ok r →
          (r.found = true ↔
            HasPodProblem k top.1 = false ∧ IsContainerRunning (pairOf top) = .ok true) ∧
          (r.found = true → r.target = pairOf top ∧ r.err = none) ∧
          r.slice.head? = some (pairOf top)) ∧
        (top.2 ≠ none → ∃ r, SelectContainer k q u clk (cs.map pairOf) = .ok r)) ∧
    (∀ (clk1 : Clock) (ps : List (Option Pod)) (r : Returned Pod),
        SelectPod k q u clk1 ps = .ok r → r.found = true →
          u.initialDelay ≤ clk1.now ∧ ps ≠ []) ∧
    (∀ (clk1 : Clock) (ps : List (Option SelectedPodContainer))
        (r : Returned SelectedPodContainer),
        SelectContainer k q u clk1 ps = .ok r → r.found = true →
          u.initialDelay ≤ clk1.now ∧ ps ≠ []) := by
  refine ⟨?_, ?_, fun clk1 ps r => SelectPod_found k q u clk1 ps r,
    fun clk1 ps r => SelectContainer_found k q u clk1 ps r⟩
  · obtain ⟨top, rest, hr, hmem, hmax⟩ := rankPods_head pods hp
    have hsel := SelectPod_ranked k q u clk pods top rest hnow hr
    by_cases h1 : HasPodProblem k top = true
    · rw [if_pos h1] at hsel
      exact ⟨top, _, hmem, hmax, hsel, rfl, by simp [h1], by simp⟩
    · rw [if_neg h1] at hsel
      have h1f : HasPodProblem k top = false := by simpa using h1
      by_cases h2 : k.GetPodStatus top = "Running"
      · rw [if_neg (by simpa using h2)] at hsel
        exact ⟨top, _, hmem, hmax, hsel, rfl, by simpa using ⟨h1f, h2⟩, by simp⟩
      · rw [if_pos (by simpa using h2)] at hsel
        exact ⟨top, _, hmem, hmax, hsel, rfl, by simp [h2], by simp⟩
  · obtain ⟨top, rest, hr, hmem, hmax⟩ := rankPairs_head cs hc
    have hs : sortSliceE SortContainersByNewest (cs.map pairOf)
        = .ok ((top :: rest).map pairOf) := by rw [sortPairs_pairOf, hr]
    have hsel := SelectContainer_rankedPairs k q u clk cs top rest hnow hc hs
    refine ⟨top, hmem, hmax, ?_, ?_, ?_⟩
    · intro h1 h2
      rw [if_neg (by simp [h1]), h2] at hsel
      exact ⟨_, hsel, rfl, rfl, rfl⟩
    · intro r hr1
      rw [hsel] at hr1
      by_cases h1 : HasPodProblem k top.1 = true
      · rw [if_pos h1] at hr1
        cases hr1
        simp [h1]
      · rw [if_neg h1] at hr1
        have h1f : HasPodProblem k top.1 = false := by simpa using h1
        cases hrun : IsContainerRunning (pairOf top) with
        | error e => rw [hrun] at hr1; cases hr1
        | ok b =>
          rw [hrun] at hr1
          cases b with
          | true => cases hr1; simp [h1f]
          | false => cases hr1; simp
    · intro hcont
      obtain ⟨b, hb⟩ := IsContainerRunning_returns top hcont
      by_cases h1 : HasPodProblem k top.1 = true
      · rw [if_pos h1] at hsel
        exact ⟨_, hsel⟩
      · rw [if_neg h1, hb] at hsel
        cases b with
        | true => exact ⟨_, hsel⟩
        | false => exact ⟨_, hsel⟩

theorem C2_found_iff_newest_running_witness :
    sampleStrategy.initialDelay ≤ (atSecond 6).now ∧
    [samplePod "web-1" 100 "Running"] ≠ [] ∧
    [(samplePodWithApp "web-1" 100 "Running", some (⟨"app"⟩ : Container))] ≠ [] ∧
    SelectPod sampleKubectl noEvents sampleStrategy (atSecond 6)
        ([samplePod "web-1" 100 "Running"].map some)
      = .ok ⟨true, some (samplePod "web-1" 100 "Running"), none, sampleStrategy,
          [some (samplePod "web-1" 100 "Running")], []⟩ ∧
    SelectContainer sampleKubectl noEvents sampleStrategy (atSecond 6)
        ([(samplePodWithApp "web-1" 100 "Running", some (⟨"app"⟩ : Container))].map pairOf)
      = .ok ⟨true, pairOf (samplePodWithApp "web-1" 100 "Running", some ⟨"app"⟩), none,
          sampleStrategy,
          [pairOf (samplePodWithApp "web-1" 100 "Running", some ⟨"app"⟩)], []⟩ ∧
    (∃ top r, top ∈ [samplePod "web-1" 100 "Running"] ∧
        (∀ p ∈ [samplePod "web-1" 100 "Running"],
          p.CreationTimestamp ≤ top.CreationTimestamp) ∧
        SelectPod sampleKubectl noEvents sampleStrategy (atSecond 6)
          ([samplePod "web-1" 100 "Running"].map some) = .ok r ∧
        r.slice.head? = some (some top) ∧
        (r.found = true ↔ HasPodProblem sampleKubectl top = false ∧
          sampleKubectl.GetPodStatus top = "Running") ∧
        (r.found = true → r.target = some top ∧ r.err = none)) ∧
    (∃ top, top ∈ [(samplePodWithApp "web-1" 100 "Running", some (⟨"app"⟩ : Container))] ∧
        (∀ c ∈ [(samplePodWithApp "web-1" 100 "Running", some (⟨"app"⟩ : Container))],
          c.1.CreationTimestamp ≤ top.1.CreationTimestamp) ∧
        (HasPodProblem sampleKubectl top.1 = false →
          IsContainerRunning (pairOf top) = .ok true →
          ∃ r, SelectContainer sampleKubectl noEvents sampleStrategy (atSecond 6)
              ([(samplePodWithApp "web-1" 100 "Running",
                  some (⟨"app"⟩ : Container))].map pairOf) = .ok r ∧
            r.found = true ∧ r.target = pairOf top ∧ r.err = none) ∧
        (∀ r, SelectContainer sampleKubectl noEvents sampleStrategy (atSecond 6)
              ([(samplePodWithApp "web-1" 100 "Running",
                  some (⟨"app"⟩ : Container))].map pairOf) = .ok r →
          (r.found = true ↔
            HasPodProblem sampleKubectl top.1 = false ∧
              IsContainerRunning (pairOf top) = .ok true) ∧
          (r.found = true → r.target = pairOf top ∧ r.err = none) ∧
          r.slice.head? = some (pairOf top)) ∧
        (top.2 ≠ none →
          ∃ r, SelectContainer sampleKubectl noEvents sampleStrategy (atSecond 6)
              ([(samplePodWithApp "web-1" 100 "Running",
                  some (⟨"app"⟩ : Container))].map pairOf) = .ok r)) :=
  ⟨by decide, by decide, by decide, rfl, rfl,
    (C2_found_iff_newest_running sampleKubectl noEvents sampleStrategy (atSecond 6)
      [samplePod "web-1" 100 "Running"]
      [(samplePodWithApp "web-1" 100 "Running", some ⟨"app"⟩)]
      (by decide) (by decide) (by decide)).1,
    (C2_found_iff_newest_running sampleKubectl noEvents sampleStrategy (atSecond 6)
      [samplePod "web-1" 100 "Running"]
      [(samplePodWithApp "web-1" 100 "Running", some ⟨"app"⟩)]
      (by decide) (by decide) (by decide)).2.1⟩

/-- C3 (newest wins).  Two pods created at `T1 < T2`, given in either order at
or after the deadline, the one created at `T2` with status `"Running"` and not
critical: `SelectPod` returns `(true, the pod created at T2, nil)`, logs
nothing, leaves the strategy as it was and the slice newest first.  The status
of the older pod is not read, so the result is the same when it is running
and not critical too. -/
theorem C3_newest_pod_wins (k : Kubectl) (q : EventQuery) (u : untilNewestRunning)
    (clk : Clock) (p1 p2 : Pod)
    (hnow : u.initialDelay ≤ clk.now)
    (ht : p1.CreationTimestamp < p2.CreationTimestamp)
    (hr2 : k.GetPodStatus p2 = "Running") (hc2 : HasPodProblem k p2 = false) :
    SelectPod k q u clk [some p1, some p2]
      = .ok ⟨true, some p2, none, u, [some p2, some p1], []⟩ ∧
    SelectPod k q u clk [some p2, some p1]
      = .ok ⟨true, some p2, none, u, [some p2, some p1], []⟩ := by
  have hlt : ¬ p2.CreationTimestamp < p1.CreationTimestamp := by omega
  have ha : rankPods [p1, p2] = [p2, p1] := by
    simp [rankPods, sortSlice, sortLoop, sink, ht]
  have hb : rankPods [p2, p1] = [p2, p1] := by
    simp [rankPods, sortSlice, sortLoop, sink, hlt]
  have h1 := SelectPod_ranked k q u clk [p1, p2] p2 [p1] hnow ha
  have h2 := SelectPod_ranked k q u clk [p2, p1] p2 [p1] hnow hb
  simp only [hc2, hr2] at h1 h2
  exact ⟨by simpa using h1, by simpa using h2⟩

theorem C3_newest_pod_wins_witness :
    sampleStrategy.initialDelay ≤ (atSecond 6).now ∧
    (samplePod "old" 100 "Running").CreationTimestamp
      < (samplePod "new" 200 "Running").CreationTimestamp ∧
    (SelectPod sampleKubectl failingQuery sampleStrategy (atSecond 6)
        [some (samplePod "old" 100 "Running"), some (samplePod "new" 200 "Running")]
      = .ok ⟨true, some (samplePod "new" 200 "Running"), none, sampleStrategy,
          [some (samplePod "new" 200 "Running"), some (samplePod "old" 100 "Running")], []⟩ ∧
     SelectPod sampleKubectl failingQuery sampleStrategy (atSecond 6)
        [some (samplePod "new" 200 "Running"), some (samplePod "old" 100 "Running")]
      = .ok ⟨true, some (samplePod "new" 200 "Running"), none, sampleStrategy,
          [some (samplePod "new" 200 "Running"), some (samplePod "old" 100 "Running")], []⟩) :=
  ⟨by decide, by decide,
    C3_newest_pod_wins sampleKubectl failingQuery sampleStrategy (atSecond 6)
      (samplePod "old" 100 "Running") (samplePod "new" 200 "Running")
      (by decide) (by decide) (by decide) (by decide)⟩

/-- C4 (critical short-circuit).  A single candidate whose pod is critical, that
is, whose derived status with a leading `Init:` removed reads `true` in the
status table: `SelectPod` and `SelectContainer` return, with `found = false`,
a nil target and a nil error, at every clock reading, whatever the container
statuses of the pod report and whatever the candidate's container is. -/
theorem C4_critical_not_found (k : Kubectl) (q : EventQuery) (u : untilNewestRunning)
    (clk : Clock) (pod : Pod) (c : Option Container)
    (h : k.CriticalStatus (TrimPrefix (k.GetPodStatus pod) "Init:") = true) :
    (∃ r, SelectPod k q u clk [some pod] = .ok r ∧
        r.found = false ∧ r.target = none ∧ r.err = none) ∧
    (∃ r, SelectContainer k q u clk [some ⟨some pod, c⟩] = .ok r ∧
        r.found = false ∧ r.target = none ∧ r.err = none) := by
  have hp : HasPodProblem k pod = true := h
  constructor
  · by_cases h1 : clk.now < u.initialDelay
    · exact ⟨_, SelectPod_early k q u clk [some pod] h1, rfl, rfl, rfl⟩
    · have he : SelectPod k q u clk [some pod] = .ok ⟨false, none, none,
          { u with podInfoPrinter := (PrintPodWarning k u.podInfoPrinter clk pod).1 },
          [some pod], (PrintPodWarning k u.podInfoPrinter clk pod).2⟩ := by
        unfold SelectPod
        rw [if_neg h1, if_neg (by simp)]
        simp only [sortSliceE, sortLoopE, sinkE, List.reverse_cons, List.reverse_nil,
          List.nil_append, hp, if_true]
      exact ⟨_, he, rfl, rfl, rfl⟩
  · by_cases h1 : clk.now < u.initialDelay
    · exact ⟨_, SelectContainer_early k q u clk [some ⟨some pod, c⟩] h1,
        rfl, rfl, rfl⟩
    · have he : SelectContainer k q u clk [some ⟨some pod, c⟩] = .ok ⟨false, none, none,
          { u with podInfoPrinter := (PrintPodWarning k u.podInfoPrinter clk pod).1 },
          [some ⟨some pod, c⟩], (PrintPodWarning k u.podInfoPrinter clk pod).2⟩ := by
        unfold SelectContainer
        rw [if_neg h1, if_neg (by simp)]
        simp only [sortSliceE, sortLoopE, sinkE, List.reverse_cons, List.reverse_nil,
          List.nil_append, hp, if_true]
      exact ⟨_, he, rfl, rfl, rfl⟩

theorem C4_critical_not_found_witness :
    sampleKubectl.CriticalStatus
      (TrimPrefix (sampleKubectl.GetPodStatus (samplePodWithApp "web-1" 100 "CrashLoopBackOff"))
        "Init:") = true ∧
    IsContainerRunning
      (some ⟨some (samplePodWithApp "web-1" 100 "CrashLoopBackOff"), some ⟨"app"⟩⟩) = .ok true ∧
    ((∃ r, SelectPod sampleKubectl noEvents sampleStrategy (atSecond 6)
        [some (samplePodWithApp "web-1" 100 "CrashLoopBackOff")] = .ok r ∧
        r.found = false ∧ r.target = none ∧ r.err = none) ∧
    (∃ r, SelectContainer sampleKubectl noEvents sampleStrategy (atSecond 6)
        [some ⟨some (samplePodWithApp "web-1" 100 "CrashLoopBackOff"), some ⟨"app"⟩⟩] = .ok r ∧
        r.found = false ∧ r.target = none ∧ r.err = none)) :=
  ⟨by decide, rfl,
    C4_critical_not_found sampleKubectl noEvents sampleStrategy (atSecond 6)
      (samplePodWithApp "web-1" 100 "CrashLoopBackOff") (some ⟨"app"⟩) (by decide)⟩

/-! ## The shape of a returned result -/

theorem SelectPod_err (k : Kubectl) (q : EventQuery) (u : untilNewestRunning) (clk : Clock)
    (ps : List (Option Pod)) (r : Returned Pod) (h : SelectPod k q u clk ps = .ok r) :
    r.err = none := by
  unfold SelectPod at h
  split at h
  · cases h; rfl
  · split at h
    · cases h; rfl
    · split at h
      · cases h
      · split at h
        · cases h
        · cases h
        · split at h
          · cases h; rfl
          · split at h <;> (cases h; rfl)

theorem SelectContainer_err (k : Kubectl) (q : EventQuery) (u : untilNewestRunning)
    (clk : Clock) (cs : List (Option SelectedPodContainer)) (r : Returned SelectedPodContainer)
    (h : SelectContainer k q u clk cs = .ok r) : r.err = none := by
  unfold SelectContainer at h
  split at h
  · cases h; rfl
  · split at h
    · cases h; rfl
    · split at h
      · cases h
      · split at h
        · cases h
        · cases h
        · split at h
          · cases h
          · split at h
            · cases h; rfl
            · split at h
              · cases h
              · cases h; rfl
              · cases h; rfl

theorem sortSliceE_perm {α : Type} (lessE : α → α → Except Panic Bool) (data r : List α)
    (h : sortSliceE lessE data = .ok r) : r.Perm data := by
  have hg := (sortLoopE_good lessE (fun _ => False) (fun a b hab => by cases hab <;> contradiction)
    data [] r h (Or.inl (by simp))).1
  simpa using hg

theorem SelectPod_target (k : Kubectl) (q : EventQuery) (u : untilNewestRunning) (clk : Clock)
    (ps : List (Option Pod)) (r : Returned Pod) (h : SelectPod k q u clk ps = .ok r) :
    (r.found = false → r.target = none) ∧
    (r.found = true → ∃ p, r.target = some p ∧ some p ∈ ps) := by
  unfold SelectPod at h
  split at h
  · cases h; exact ⟨fun _ => rfl, fun hf => by cases hf⟩
  · split at h
    · cases h; exact ⟨fun _ => rfl, fun hf => by cases hf⟩
    · split at h
      · cases h
      · rename_i sorted hs
        have hperm := sortSliceE_perm _ _ _ hs
        split at h
        · cases h
        · cases h
        · rename_i pod tail
          split at h
          · cases h; exact ⟨fun _ => rfl, fun hf => by cases hf⟩
          · split at h
            · cases h; exact ⟨fun _ => rfl, fun hf => by cases hf⟩
            · cases h
              exact ⟨(fun hf => by cases hf),
                fun _ => ⟨pod, rfl, hperm.mem_iff.mp (List.mem_cons_self _ _)⟩⟩

theorem SelectContainer_target (k : Kubectl) (q : EventQuery) (u : untilNewestRunning)
    (clk : Clock) (cs : List (Option SelectedPodContainer)) (r : Returned SelectedPodContainer)
    (h : SelectContainer k q u clk cs = .ok r) :
    (r.found = false → r.target = none) ∧
    (r.found = true → ∃ c, r.target = some c ∧ some c ∈ cs) := by
  unfold SelectContainer at h
  split at h
  · cases h; exact ⟨fun _ => rfl, fun hf => by cases hf⟩
  · split at h
    · cases h; exact ⟨fun _ => rfl, fun hf => by cases hf⟩
    · split at h
      · cases h
      · rename_i sorted hs
        have hperm := sortSliceE_perm _ _ _ hs
        split at h
        · cases h
        · cases h
        · rename_i c tail
          split at h
          · cases h
          · split at h
            · cases h; exact ⟨fun _ => rfl, fun hf => by cases hf⟩
            · split at h
              · cases h
              · cases h; exact ⟨fun _ => rfl, fun hf => by cases hf⟩
              · cases h
                exact ⟨(fun hf => by cases hf),
                  fun _ => ⟨c, rfl, hperm.mem_iff.mp (List.mem_cons_self _ _)⟩⟩

/-- C5, the claim fails.  The list holds one non-nil pair with a non-nil Pod
that is running, not critical, not deleted and has a status entry; the
Container of the pair is nil.  After the deadline `SelectContainer` does not
return a result: `IsContainerRunning` reads the name of the nil Container. -/
theorem C5_nil_container_no_result :
    SelectContainer sampleKubectl noEvents sampleStrategy (atSecond 6)
        [some ⟨some (samplePodWithApp "web-1" 100 "Running"), none⟩]
      = .error Panic.nilDereference ∧
    ¬ (∃ r, SelectContainer sampleKubectl noEvents sampleStrategy (atSecond 6)
        [some ⟨some (samplePodWithApp "web-1" 100 "Running"), none⟩] = .ok r) := by
  have h : SelectContainer sampleKubectl noEvents sampleStrategy (atSecond 6)
      [some ⟨some (samplePodWithApp "web-1" 100 "Running"), none⟩]
        = .error Panic.nilDereference := rfl
  refine ⟨h, ?_⟩
  rintro ⟨r, hr⟩
  rw [h] at hr
  cases hr

/-- C5, amended.  For every list of candidates without a nil pointer (for
`SelectContainer`: the pair, its Pod and its Container), every clock and
every answer of the cluster to the event query, a failed list call included,
`SelectPod` and `SelectContainer` return, the error is nil, the target is nil
when `found` is false and is one of the candidates when `found` is true.  On
the empty list the result is `(false, nil, nil)`.  For every candidate list
whatsoever, a call that returns has a nil error, a nil target when `found` is
false and a candidate of the list as target when `found` is true. -/
theorem C5_result_shape (k : Kubectl) (q : EventQuery) (u : untilNewestRunning)
    (clk : Clock) (pods : List Pod) (cs : List (Pod × Container)) :
    (∃ r, SelectPod k q u clk (pods.map some) = .ok r ∧ r.err = none ∧
        (r.found = false → r.target = none) ∧
        (r.found = true → ∃ p ∈ pods, r.target = some p)) ∧
    (∃ r, SelectContainer k q u clk (cs.map candidate) = .ok r ∧ r.err = none ∧
        (r.found = false → r.target = none) ∧
        (r.found = true → ∃ c ∈ cs, r.target = candidate c)) ∧
    (∃ r, SelectPod k q u clk [] = .ok r ∧
        r.found = false ∧ r.target = none ∧ r.err = none) ∧
    (∃ r, SelectContainer k q u clk [] = .ok r ∧
        r.found = false ∧ r.target = none ∧ r.err = none) ∧
    (∀ (ps : List (Option Pod)) (r : Returned Pod), SelectPod k q u clk ps = .ok r →
        r.err = none ∧ (r.found = false → r.target = none) ∧
        (r.found = true → ∃ p, r.target = some p ∧ some p ∈ ps)) ∧
    (∀ (ps : List (Option SelectedPodContainer)) (r : Returned SelectedPodContainer),
        SelectContainer k q u clk ps = .ok r →
        r.err = none ∧ (r.found = false → r.target = none) ∧
        (r.found = true → ∃ c, r.target = some c ∧ some c ∈ ps)) := by
  have hemptyP : ∃ r, SelectPod k q u clk [] = .ok r ∧
      r.found = false ∧ r.target = none ∧ r.err = none := by
    by_cases h1 : clk.now < u.initialDelay
    · exact ⟨_, SelectPod_early k q u clk [] h1, rfl, rfl, rfl⟩
    · have he : SelectPod k q u clk [] = .ok ⟨false, none, none,
          { u with podInfoPrinter := (PrintNotFoundWarning q u.podInfoPrinter clk).1 },
          [], (PrintNotFoundWarning q u.podInfoPrinter clk).2⟩ := by
        unfold SelectPod
        rw [if_neg h1, if_pos List.length_nil]
      exact ⟨_, he, rfl, rfl, rfl⟩
  have hemptyC : ∃ r, SelectContainer k q u clk [] = .ok r ∧
      r.found = false ∧ r.target = none ∧ r.err = none := by
    by_cases h1 : clk.now < u.initialDelay
    · exact ⟨_, SelectContainer_early k q u clk [] h1, rfl, rfl, rfl⟩
    · have he : SelectContainer k q u clk [] = .ok ⟨false, none, none,
          { u with podInfoPrinter := (PrintNotFoundWarning q u.podInfoPrinter clk).1 },
          [], (PrintNotFoundWarning q u.podInfoPrinter clk).2⟩ := by
        unfold SelectContainer
        rw [if_neg h1, if_pos List.length_nil]
      exact ⟨_, he, rfl, rfl, rfl⟩
  refine ⟨?_, ?_, hemptyP, hemptyC,
    fun ps r h => ⟨SelectPod_err k q u clk ps r h, SelectPod_target k q u clk ps r h⟩,
    fun ps r h => ⟨SelectContainer_err k q u clk ps r h, SelectContainer_target k q u clk ps r h⟩⟩
  · by_cases h1 : clk.now < u.initialDelay
    · exact ⟨_, SelectPod_early k q u clk _ h1, rfl, fun _ => rfl, fun h => by cases h⟩
    · by_cases hp : pods = []
      · subst hp
        obtain ⟨r, hr, hf, ht, he⟩ := hemptyP
        exact ⟨r, hr, he, fun _ => ht, fun h => by rw [hf] at h; cases h⟩
      · obtain ⟨top, rest, hr, hmem, _⟩ := rankPods_head pods hp
        have hsel := SelectPod_ranked k q u clk pods top rest (not_lt.mp h1) hr
        by_cases h2 : HasPodProblem k top = true
        · rw [if_pos h2] at hsel
          exact ⟨_, hsel, rfl, fun _ => rfl, fun h => by cases h⟩
        · rw [if_neg h2] at hsel
          by_cases h3 : k.GetPodStatus top = "Running"
          · rw [if_neg (by simpa using h3)] at hsel
            exact ⟨_, hsel, rfl, (fun h => by cases h), fun _ => ⟨top, hmem, rfl⟩⟩
          · rw [if_pos (by simpa using h3)] at hsel
            exact ⟨_, hsel, rfl, fun _ => rfl, fun h => by cases h⟩
  · by_cases h1 : clk.now < u.initialDelay
    · exact ⟨_, SelectContainer_early k q u clk _ h1, rfl, fun _ => rfl, fun h => by cases h⟩
    · by_cases hc : cs = []
      · subst hc
        obtain ⟨r, hr, hf, ht, he⟩ := hemptyC
        exact ⟨r, hr, he, fun _ => ht, fun h => by rw [hf] at h; cases h⟩
      · obtain ⟨top, rest, hr, hmem, _⟩ := rankContainers_head cs hc
        have hsel := SelectContainer_ranked k q u clk cs top rest (not_lt.mp h1) hr
        by_cases h2 : HasPodProblem k top.1 = true
        · rw [if_pos h2] at hsel
          exact ⟨_, hsel, rfl, fun _ => rfl, fun h => by cases h⟩
        · rw [if_neg h2] at hsel
          obtain ⟨b, hb, _⟩ := IsContainerRunning_candidate top.1 top.2
          have hb1 : IsContainerRunning (candidate top) = .ok b := hb
          rw [hb1] at hsel
          cases b with
          | true => exact ⟨_, hsel, rfl, (fun h => by cases h), fun _ => ⟨top, hmem, rfl⟩⟩
          | false => exact ⟨_, hsel, rfl, fun _ => rfl, fun h => by cases h⟩

/-! ## Nil candidates -/

theorem SortPodsByNewest_nil (a b : Option Pod) (h : a = none ∨ b = none) :
    SortPodsByNewest a b = .error Panic.nilDereference := by
  cases a <;> cases b <;> simp [SortPodsByNewest] at h ⊢

theorem SortPodsByNewest_error (a b : Option Pod) (e : Panic)
    (h : SortPodsByNewest a b = .error e) : e = Panic.nilDereference := by
  cases a <;> cases b <;> simp [SortPodsByNewest] at h <;> exact h.symm

theorem SortContainersByNewest_nil (a b : Option SelectedPodContainer)
    (h : nilCandidate a ∨ nilCandidate b) :
    SortContainersByNewest a b = .error Panic.nilDereference := by
  rcases a with _ | ⟨pa, ca⟩ <;> rcases b with _ | ⟨pb, cb⟩
  · rfl
  · rfl
  · rfl
  · cases pa <;> cases pb
    · rfl
    · rfl
    · rfl
    · exfalso
      rcases h with h | h <;> rcases h with h | ⟨x, h⟩ <;> simp at h

theorem SortContainersByNewest_error (a b : Option SelectedPodContainer) (e : Panic)
    (h : SortContainersByNewest a b = .error e) : e = Panic.nilDereference := by
  rcases a with _ | ⟨pa, ca⟩ <;> rcases b with _ | ⟨pb, cb⟩
  · cases h; rfl
  · cases h; rfl
  · cases h; rfl
  · cases pa <;> cases pb <;> cases h <;> rfl

theorem SelectPod_nil (k : Kubectl) (q : EventQuery) (u : untilNewestRunning) (clk : Clock)
    (pods : List (Option Pod)) (hnow : u.initialDelay ≤ clk.now) (hp : none ∈ pods) :
    SelectPod k q u clk pods = .error Panic.nilDereference := by
  have hne : ¬ pods.length = 0 := by
    intro h0
    rw [List.length_eq_zero] at h0
    rw [h0] at hp
    cases hp
  unfold SelectPod
  rw [if_neg (not_lt.mpr hnow), if_neg hne]
  by_cases h2 : 2 ≤ pods.length
  · rw [sortSliceE_panics SortPodsByNewest (fun o => o = none) SortPodsByNewest_nil
      SortPodsByNewest_error pods h2 none hp rfl]
  · match pods, hp, hne, h2 with
    | [x], hp, _, _ =>
      have hx : x = none := by simpa using (List.mem_singleton.mp hp).symm
      subst hx
      rfl
    | [], _, hne, _ => exact absurd rfl hne
    | _ :: _ :: _, _, _, h2 => exact absurd (by simp) h2

theorem SelectContainer_nil (k : Kubectl) (q : EventQuery) (u : untilNewestRunning)
    (clk : Clock) (cs : List (Option SelectedPodContainer)) (hnow : u.initialDelay ≤ clk.now)
    (c : Option SelectedPodContainer) (hc : c ∈ cs) (hnil : nilCandidate c) :
    SelectContainer k q u clk cs = .error Panic.nilDereference := by
  have hne : ¬ cs.length = 0 := by
    intro h0
    rw [List.length_eq_zero] at h0
    rw [h0] at hc
    cases hc
  unfold SelectContainer
  rw [if_neg (not_lt.mpr hnow), if_neg hne]
  by_cases h2 : 2 ≤ cs.length
  · rw [sortSliceE_panics SortContainersByNewest nilCandidate SortContainersByNewest_nil
      SortContainersByNewest_error cs h2 c hc hnil]
  · match cs, hc, hne, h2 with
    | [x], hc, _, _ =>
      have hx : c = x := by simpa using hc
      subst hx
      rcases hnil with h | ⟨y, h⟩ <;> subst h <;> rfl
    | [], _, hne, _ => exact absurd rfl hne
    | _ :: _ :: _, _, _, h2 => exact absurd (by simp) h2

/-- C6, the claim fails: after the deadline `SelectContainer` on the list
`[nil]` and `SelectPod` on a list with a running pod and a nil pod do not
return an error; they do not return at all, the nil pointer is dereferenced. -/
theorem C6_nil_candidate_no_error_returned :
    SelectContainer sampleKubectl noEvents sampleStrategy (atSecond 6) [none]
      = .error Panic.nilDereference ∧
    SelectPod sampleKubectl noEvents sampleStrategy (atSecond 6)
        [some (samplePod "web-1" 100 "Running"), none]
      = .error Panic.nilDereference ∧
    ¬ (∃ r, SelectContainer sampleKubectl noEvents sampleStrategy (atSecond 6) [none] = .ok r ∧
        r.err ≠ none) := by
  refine ⟨rfl, rfl, ?_⟩
  rintro ⟨r, hr, _⟩
  have h : SelectContainer sampleKubectl noEvents sampleStrategy (atSecond 6) [none]
      = .error Panic.nilDereference := rfl
  rw [h] at hr
  cases hr

/-- C6, amended.  A selection call made at or after the deadline on a list that
holds a nil candidate (a nil Pod for `SelectPod`; a nil pair or a pair with a
nil Pod for `SelectContainer`) does not return: it panics on the nil pointer.
No selection call, whatever its clock and candidates, returns a non-nil
error. -/
theorem C6_nil_candidate_panics (k : Kubectl) (q : EventQuery) (u : untilNewestRunning)
    (clk : Clock) (pods : List (Option Pod)) (cs : List (Option SelectedPodContainer))
    (hnow : u.initialDelay ≤ clk.now)
    (hp : none ∈ pods) (hc : ∃ c ∈ cs, c = none ∨ ∃ x, c = some ⟨none, x⟩) :
    SelectPod k q u clk pods = .error Panic.nilDereference ∧
    SelectContainer k q u clk cs = .error Panic.nilDereference ∧
    (∀ (clk1 : Clock) (ps : List (Option Pod)) (r : Returned Pod),
        SelectPod k q u clk1 ps = .ok r → r.err = none) ∧
    (∀ (clk1 : Clock) (ps : List (Option SelectedPodContainer))
        (r : Returned SelectedPodContainer),
        SelectContainer k q u clk1 ps = .ok r → r.err = none) := by
  obtain ⟨c, hmem, hnil⟩ := hc
  exact ⟨SelectPod_nil k q u clk pods hnow hp,
    SelectContainer_nil k q u clk cs hnow c hmem hnil,
    fun clk1 ps r => SelectPod_err k q u clk1 ps r,
    fun clk1 ps r => SelectContainer_err k q u clk1 ps r⟩

theorem C6_nil_candidate_panics_witness :
    sampleStrategy.initialDelay ≤ (atSecond 6).now ∧
    none ∈ [some (samplePod "a" 1 "Running"), some (samplePod "b" 2 "Running"), none] ∧
    (SelectPod sampleKubectl noEvents sampleStrategy (atSecond 6)
        [some (samplePod "a" 1 "Running"), some (samplePod "b" 2 "Running"), none]
      = .error Panic.nilDereference ∧
    SelectContainer sampleKubectl noEvents sampleStrategy (atSecond 6)
        [candidate (samplePodWithApp "a" 1 "Running", ⟨"app"⟩), some ⟨none, some ⟨"app"⟩⟩]
      = .error Panic.nilDereference ∧
    (∀ (clk1 : Clock) (ps : List (Option Pod)) (r : Returned Pod),
        SelectPod sampleKubectl noEvents sampleStrategy clk1 ps = .ok r → r.err = none) ∧
    (∀ (clk1 : Clock) (ps : List (Option SelectedPodContainer))
        (r : Returned SelectedPodContainer),
        SelectContainer sampleKubectl noEvents sampleStrategy clk1 ps = .ok r →
          r.err = none)) :=
  ⟨by decide, by decide,
    C6_nil_candidate_panics sampleKubectl noEvents sampleStrategy (atSecond 6)
      [some (samplePod "a" 1 "Running"), some (samplePod "b" 2 "Running"), none]
      [candidate (samplePodWithApp "a" 1 "Running", ⟨"app"⟩), some ⟨none, some ⟨"app"⟩⟩]
      (by decide) (by decide)
      ⟨some ⟨none, some ⟨"app"⟩⟩, by simp, Or.inr ⟨some ⟨"app"⟩, rfl⟩⟩⟩

/-- C7 (event matcher).  `eventMatches e os` is true exactly when some object of
`os` agrees with the involved object of `e` on each of Name, Kind, UID that
the object sets (an empty field is not compared).  So an object with three
empty fields matches every event, an object that sets Kind alone matches
exactly the events of that kind, whatever their Name and UID (for the empty
kind that is every event), and the empty list matches no event. -/
theorem C7_eventMatches_iff (e : Event) (os : List relevantObject) (K : String) :
    (eventMatches e os = true ↔
      ∃ o ∈ os, (o.Name = "" ∨ e.InvolvedObject.Name = o.Name) ∧
        (o.Kind = "" ∨ e.InvolvedObject.Kind = o.Kind) ∧
        (o.UID = "" ∨ e.InvolvedObject.UID = o.UID)) ∧
    eventMatches e [⟨"", "", ""⟩] = true ∧
    (eventMatches e [⟨K, "", ""⟩] = true ↔ (K = "" ∨ e.InvolvedObject.Kind = K)) ∧
    eventMatches e [] = false := by
  have main : ∀ l : List relevantObject, (eventMatches e l = true ↔
      ∃ o ∈ l, (o.Name = "" ∨ e.InvolvedObject.Name = o.Name) ∧
        (o.Kind = "" ∨ e.InvolvedObject.Kind = o.Kind) ∧
        (o.UID = "" ∨ e.InvolvedObject.UID = o.UID)) := by
    intro l
    induction l with
    | nil => simp [eventMatches]
    | cons o rest ih =>
      unfold eventMatches
      by_cases h1 : o.Name ≠ "" ∧ e.InvolvedObject.Name ≠ o.Name
      · rw [if_pos h1, ih]
        constructor
        · rintro ⟨x, hx, hx2⟩
          exact ⟨x, List.mem_cons_of_mem _ hx, hx2⟩
        · rintro ⟨x, hx, hx2⟩
          rcases List.mem_cons.mp hx with h | h
          · subst h
            rcases hx2.1 with h3 | h3
            · exact absurd h3 h1.1
            · exact absurd h3 h1.2
          · exact ⟨x, h, hx2⟩
      · rw [if_neg h1]
        by_cases h2 : o.Kind ≠ "" ∧ e.InvolvedObject.Kind ≠ o.Kind
        · rw [if_pos h2, ih]
          constructor
          · rintro ⟨x, hx, hx2⟩
            exact ⟨x, List.mem_cons_of_mem _ hx, hx2⟩
          · rintro ⟨x, hx, hx2⟩
            rcases List.mem_cons.mp hx with h | h
            · subst h
              rcases hx2.2.1 with h3 | h3
              · exact absurd h3 h2.1
              · exact absurd h3 h2.2
            · exact ⟨x, h, hx2⟩
        · rw [if_neg h2]
          by_cases h3 : o.UID ≠ "" ∧ e.InvolvedObject.UID ≠ o.UID
          · rw [if_pos h3, ih]
            constructor
            · rintro ⟨x, hx, hx2⟩
              exact ⟨x, List.mem_cons_of_mem _ hx, hx2⟩
            · rintro ⟨x, hx, hx2⟩
              rcases List.mem_cons.mp hx with h | h
              · subst h
                rcases hx2.2.2 with h4 | h4
                · exact absurd h4 h3.1
                · exact absurd h4 h3.2
              · exact ⟨x, h, hx2⟩
          · rw [if_neg h3]
            simp only [true_iff]
            refine ⟨o, List.mem_cons_self _ _, ?_, ?_, ?_⟩
            · by_contra hc
              exact h1 ⟨fun h => hc (Or.inl h), fun h => hc (Or.inr h)⟩
            · by_contra hc
              exact h2 ⟨fun h => hc (Or.inl h), fun h => hc (Or.inr h)⟩
            · by_contra hc
              exact h3 ⟨fun h => hc (Or.inl h), fun h => hc (Or.inr h)⟩
  refine ⟨main os, ?_, ?_, rfl⟩
  · rw [main]
    exact ⟨_, List.mem_singleton.mpr rfl, Or.inl rfl, Or.inl rfl, Or.inl rfl⟩
  · rw [main]
    constructor
    · rintro ⟨o, ho, h⟩
      rw [List.mem_singleton.mp ho] at h
      exact h.2.1
    · intro h
      exact ⟨_, List.mem_singleton.mpr rfl, Or.inl rfl, h, Or.inl rfl⟩

/-- C8 (running container).  For a pair with non-nil Pod and non-nil
Container, `IsContainerRunning` returns, and returns true exactly when the pod
has no deletion timestamp and some entry of its init-container statuses or of
its container statuses has the container's name and a non-nil `Running` state.
With a deletion timestamp it returns false. -/
theorem C8_IsContainerRunning_iff (pod : Pod) (c : Container) :
    (∃ b, IsContainerRunning (some ⟨some pod, some c⟩) = .ok b ∧
      (b = true ↔ pod.DeletionTimestamp = none ∧
        ∃ cs ∈ pod.Status.InitContainerStatuses ++ pod.Status.ContainerStatuses,
          cs.Name = c.Name ∧ cs.State.Running ≠ none)) ∧
    (pod.DeletionTimestamp ≠ none →
      IsContainerRunning (some ⟨some pod, some c⟩) = .ok false) := by
  refine ⟨IsContainerRunning_candidate pod c, ?_⟩
  intro hd
  simp [IsContainerRunning, hd]

/-! ## The cooldown -/

theorem cooldownOver_iff (u : PodInfoPrinter) (since : Int) :
    cooldownOver u since = true ↔ since - u.lastWarning > 10000000000 := by
  simp [cooldownOver, Second]

/-- A report call logs something exactly when the cooldown is over. -/
theorem runReport_log (k : Kubectl) (u : PodInfoPrinter) (c : ReportCall) :
    (runReport k u c).2 ≠ [] ↔ cooldownOver u c.clk.since = true := by
  unfold runReport
  cases c.report <;>
    by_cases h : cooldownOver u c.clk.since = true <;>
    simp [PrintPodInfo, PrintNotFoundWarning, PrintPodWarning, h]

theorem runReport_stamp (k : Kubectl) (u : PodInfoPrinter) (c : ReportCall)
    (h : cooldownOver u c.clk.since = true) :
    (runReport k u c).1.lastWarning = c.clk.stamp := by
  unfold runReport
  cases c.report <;> simp [PrintPodInfo, PrintNotFoundWarning, PrintPodWarning, h]

theorem runReport_quiet (k : Kubectl) (u : PodInfoPrinter) (c : ReportCall)
    (h : ¬ cooldownOver u c.clk.since = true) :
    runReport k u c = (u, []) := by
  unfold runReport
  cases c.report <;> simp [PrintPodInfo, PrintNotFoundWarning, PrintPodWarning, h]

theorem runReport_lastWarning_mono (k : Kubectl) (u : PodInfoPrinter) (c : ReportCall)
    (hc : c.clk.since ≤ c.clk.stamp) :
    u.lastWarning ≤ (runReport k u c).1.lastWarning := by
  by_cases h : cooldownOver u c.clk.since = true
  · rw [runReport_stamp k u c h]
    have := (cooldownOver_iff u c.clk.since).mp h
    omega
  · rw [runReport_quiet k u c h]

/-- A call of the sequence that logs something reads the clock more than ten
seconds after the `lastWarning` the sequence started from. -/
theorem runReports_after_start (k : Kubectl) (calls : List ReportCall) :
    ∀ (u : PodInfoPrinter), (∀ c ∈ calls, c.clk.since ≤ c.clk.stamp) →
    ∀ (j : Nat) (cj : ReportCall) (rj : PodInfoPrinter × List LogLine),
      calls[j]? = some cj → (runReports k u calls)[j]? = some rj → rj.2 ≠ [] →
      cj.clk.since - u.lastWarning > 10000000000 := by
  induction calls with
  | nil => intro u _ j cj rj h; simp at h
  | cons c rest ih =>
    intro u hclk j cj rj hcj hrj hlog
    cases j with
    | zero =>
      simp only [List.getElem?_cons_zero, Option.some.injEq, runReports] at hcj hrj
      subst hcj; subst hrj
      exact (cooldownOver_iff u _).mp ((runReport_log k u c).mp hlog)
    | succ j =>
      simp only [List.getElem?_cons_succ, runReports] at hcj hrj
      have h1 := ih (runReport k u c).1 (fun x hx => hclk x (List.mem_cons_of_mem _ hx))
        j cj rj hcj hrj hlog
      have h2 := runReport_lastWarning_mono k u c (hclk c (List.mem_cons_self _ _))
      omega

theorem runReports_spacing (k : Kubectl) (calls : List ReportCall) :
    ∀ (u : PodInfoPrinter), (∀ c ∈ calls, c.clk.since ≤ c.clk.stamp) →
    ∀ (i j : Nat) (ci cj : ReportCall) (ri rj : PodInfoPrinter × List LogLine),
      i < j → calls[i]? = some ci → calls[j]? = some cj →
      (runReports k u calls)[i]? = some ri → (runReports k u calls)[j]? = some rj →
      ri.2 ≠ [] → rj.2 ≠ [] → cj.clk.since - ci.clk.stamp > 10000000000 := by
  induction calls with
  | nil => intro u _ i j ci cj ri rj _ h; simp at h
  | cons c rest ih =>
    intro u hclk i j ci cj ri rj hij hci hcj hri hrj hli hlj
    have hrest : ∀ x ∈ rest, x.clk.since ≤ x.clk.stamp :=
      fun x hx => hclk x (List.mem_cons_of_mem _ hx)
    cases j with
    | zero => omega
    | succ j =>
      simp only [List.getElem?_cons_succ, runReports] at hcj hrj
      cases i with
      | zero =>
        simp only [List.getElem?_cons_zero, Option.some.injEq, runReports] at hci hri
        subst hci; subst hri
        have h1 := runReports_after_start k rest (runReport k u c).1 hrest j cj rj hcj hrj hlj
        rw [runReport_stamp k u c ((runReport_log k u c).mp hli)] at h1
        exact h1
      | succ i =>
        simp only [List.getElem?_cons_succ, runReports] at hci hri
        exact ih (runReport k u c).1 hrest i j ci cj ri rj (by omega) hci hcj hri hrj hli hlj

/-- C9 (cooldown).  On one printer, for any sequence of report calls
(`PrintPodInfo`, `PrintNotFoundWarning`, `PrintPodWarning` in any mix, any
answers of the cluster) in which no call reads an earlier time when it stores
`lastWarning` than when it tested the cooldown: of two calls that log
something, the later one tested the cooldown more than 10 seconds after the
time the earlier one stored, hence more than 10 seconds after the earlier one
tested it.  So of two consecutive calls that test the cooldown 2 seconds
apart at most one logs anything. -/
theorem C9_bursts_ten_seconds_apart (k : Kubectl) (u : PodInfoPrinter)
    (calls : List ReportCall) (hclk : ∀ c ∈ calls, c.clk.since ≤ c.clk.stamp) :
    (∀ (i j : Nat) (ci cj : ReportCall) (ri rj : PodInfoPrinter × List LogLine),
      i < j → calls[i]? = some ci → calls[j]? = some cj →
      (runReports k u calls)[i]? = some ri → (runReports k u calls)[j]? = some rj →
      ri.2 ≠ [] → rj.2 ≠ [] →
        cj.clk.since - ci.clk.stamp > Second * 10 ∧
        cj.clk.since - ci.clk.since > Second * 10) ∧
    (∀ (v : PodInfoPrinter) (c1 c2 : ReportCall),
      c1.clk.since ≤ c1.clk.stamp → c2.clk.since = c1.clk.since + Second * 2 →
        (runReport k v c1).2 = [] ∨ (runReport k (runReport k v c1).1 c2).2 = []) := by
  constructor
  · intro i j ci cj ri rj hij hci hcj hri hrj hli hlj
    have h := runReports_spacing k calls u hclk i j ci cj ri rj hij hci hcj hri hrj hli hlj
    have hi : ci.clk.since ≤ ci.clk.stamp := hclk ci (List.getElem?_mem hci)
    simp only [Second]
    constructor <;> omega
  · intro v c1 c2 h1 h2
    by_cases hl : cooldownOver v c1.clk.since = true
    · right
      by_contra hc
      have h3 := (cooldownOver_iff _ _).mp ((runReport_log k _ c2).mp hc)
      rw [runReport_stamp k v c1 hl] at h3
      simp only [Second] at h2
      omega
    · left
      rw [runReport_quiet k v c1 hl]

theorem C9_bursts_ten_seconds_apart_witness :
    (∀ c ∈ sampleCalls, c.clk.since ≤ c.clk.stamp) ∧
    (runReports sampleKubectl sampleStrategy.podInfoPrinter sampleCalls).map
        (fun r => r.2.length) = [1, 0, 1] ∧
    ((∀ (i j : Nat) (ci cj : ReportCall) (ri rj : PodInfoPrinter × List LogLine),
      i < j → sampleCalls[i]? = some ci → sampleCalls[j]? = some cj →
      (runReports sampleKubectl sampleStrategy.podInfoPrinter sampleCalls)[i]? = some ri →
      (runReports sampleKubectl sampleStrategy.podInfoPrinter sampleCalls)[j]? = some rj →
      ri.2 ≠ [] → rj.2 ≠ [] →
        cj.clk.since - ci.clk.stamp > Second * 10 ∧
        cj.clk.since - ci.clk.since > Second * 10) ∧
    (∀ (v : PodInfoPrinter) (c1 c2 : ReportCall),
      c1.clk.since ≤ c1.clk.stamp → c2.clk.since = c1.clk.since + Second * 2 →
        (runReport sampleKubectl v c1).2 = [] ∨
          (runReport sampleKubectl (runReport sampleKubectl v c1).1 c2).2 = [])) :=
  ⟨by decide, by decide,
    C9_bursts_ten_seconds_apart sampleKubectl sampleStrategy.podInfoPrinter sampleCalls
      (by decide)⟩

/-- C10, the claim fails.  On the printer of a strategy built at time 0 with an
initial delay of 5 seconds, `PrintPodInfo` at second 6 logs nothing, and only
the call 11 seconds later logs the status line: one burst.  On a printer
whose `lastWarning` is 0, a call that tests the cooldown at second 11 and
stores `lastWarning` at second 13 logs, and the call at second 22, 11 seconds
after the first, logs nothing: one burst again. -/
theorem C10_eleven_seconds_one_burst :
    ((PrintPodInfo sampleKubectl noEvents sampleStrategy.podInfoPrinter (atSecond 6)
        (samplePod "web-1" 100 "Pending")).2 = [] ∧
     (PrintPodInfo sampleKubectl noEvents
        (PrintPodInfo sampleKubectl noEvents sampleStrategy.podInfoPrinter (atSecond 6)
          (samplePod "web-1" 100 "Pending")).1 (atSecond 17)
        (samplePod "web-1" 100 "Pending")).2
      = [statusLine sampleKubectl (samplePod "web-1" 100 "Pending")]) ∧
    ((PrintPodInfo sampleKubectl noEvents ⟨0, "default", 7, []⟩
        ⟨11 * Second, 11 * Second, 13 * Second⟩ (samplePod "web-1" 100 "Pending")).2
      = [statusLine sampleKubectl (samplePod "web-1" 100 "Pending")] ∧
     (PrintPodInfo sampleKubectl noEvents
        (PrintPodInfo sampleKubectl noEvents ⟨0, "default", 7, []⟩
          ⟨11 * Second, 11 * Second, 13 * Second⟩ (samplePod "web-1" 100 "Pending")).1
        (atSecond 22) (samplePod "web-1" 100 "Pending")).2 = []) := by
  decide

/-- C10, amended.  For every pod and every printer whose `lastWarning` is more
than 10 seconds before the cooldown test of the first call: two `PrintPodInfo`
calls that test the cooldown 11 seconds apart both log, each the status line
of the pod first, when the first call stores `lastWarning` less than a second
after its test (its event query takes less than a second). -/
theorem C10_two_bursts_after_cooldown (k : Kubectl) (q1 q2 : EventQuery) (u : PodInfoPrinter)
    (pod : Pod) (c1 c2 : Clock)
    (h1 : c1.since - u.lastWarning > Second * 10)
    (h2 : c2.since = c1.since + Second * 11)
    (h3 : c1.stamp - c1.since < Second) :
    (PrintPodInfo k q1 u c1 pod).2.head? = some (statusLine k pod) ∧
    (PrintPodInfo k q2 (PrintPodInfo k q1 u c1 pod).1 c2 pod).2.head?
      = some (statusLine k pod) := by
  have hg1 : cooldownOver u c1.since = true := by
    rw [cooldownOver_iff]; simp only [Second] at h1; omega
  have hs : (PrintPodInfo k q1 u c1 pod).1.lastWarning = c1.stamp := by
    simp [PrintPodInfo, hg1]
  have hg2 : cooldownOver (PrintPodInfo k q1 u c1 pod).1 c2.since = true := by
    rw [cooldownOver_iff, hs]; simp only [Second] at h2 h3; omega
  constructor
  · simp [PrintPodInfo, hg1, statusLine]
  · generalize PrintPodInfo k q1 u c1 pod = r at hg2
    simp [PrintPodInfo, hg2, statusLine]

theorem C10_two_bursts_after_cooldown_witness :
    (atSecond 16).since - sampleStrategy.podInfoPrinter.lastWarning > Second * 10 ∧
    (atSecond 27).since = (atSecond 16).since + Second * 11 ∧
    (atSecond 16).stamp - (atSecond 16).since < Second ∧
    ((PrintPodInfo sampleKubectl noEvents sampleStrategy.podInfoPrinter (atSecond 16)
        (samplePod "web-1" 100 "Pending")).2.head?
      = some (statusLine sampleKubectl (samplePod "web-1" 100 "Pending")) ∧
    (PrintPodInfo sampleKubectl failingQuery
        (PrintPodInfo sampleKubectl noEvents sampleStrategy.podInfoPrinter (atSecond 16)
          (samplePod "web-1" 100 "Pending")).1 (atSecond 27)
        (samplePod "web-1" 100 "Pending")).2.head?
      = some (statusLine sampleKubectl (samplePod "web-1" 100 "Pending"))) :=
  ⟨by decide, by decide, by decide,
    C10_two_bursts_after_cooldown sampleKubectl noEvents failingQuery
      sampleStrategy.podInfoPrinter (samplePod "web-1" 100 "Pending")
      (atSecond 16) (atSecond 27) (by decide) (by decide) (by decide)⟩

/-! ## `displayWarnings` -/

/-- The loop of `displayWarnings` logs the events of the specification and
appends their names to the filter. -/
theorem displayLoop_eq (ro : List relevantObject) (alreadyShown : List String)
    (events earlier : List Event) :
    displayLoop ro events (alreadyShown ++ earlier.map (fun d => d.Name)) =
      (alreadyShown ++ earlier.map (fun d => d.Name)
          ++ (warningsToLog ro alreadyShown events earlier).map (fun d => d.Name),
        (warningsToLog ro alreadyShown events earlier).map eventLine) := by
  induction events generalizing earlier with
  | nil => simp [displayLoop, warningsToLog]
  | cons e rest ih =>
    unfold displayLoop warningsToLog
    by_cases h1 : e.Type_ = "Warning"
    · by_cases h2 : e.Name ∈ alreadyShown
      · simp [h1, h2, Contains, ih]
      · by_cases h3 : e.Name ∈ earlier.map (fun d => d.Name)
        · have h3a : ∃ a ∈ earlier, a.Name = e.Name := by simpa using h3
          simp [h1, h2, h3a, Contains, ih]
        · have h3a : ¬ ∃ a ∈ earlier, a.Name = e.Name := by simpa using h3
          by_cases h4 : eventMatches e ro = true
          · have hstep := ih (earlier ++ [e])
            simp only [List.map_append, List.map_cons, List.map_nil, List.append_assoc,
              List.singleton_append] at hstep
            simp [h1, h2, h3a, h4, Contains, hstep]
          · simp [h1, h2, h3a, h4, Contains, ih]
    · simp [h1, ih]

theorem warningsToLog_sublist (ro : List relevantObject) (alreadyShown : List String)
    (events earlier : List Event) :
    (warningsToLog ro alreadyShown events earlier).Sublist events := by
  induction events generalizing earlier with
  | nil => simp [warningsToLog]
  | cons e rest ih =>
    unfold warningsToLog
    split
    · exact (ih _).cons₂ e
    · exact (ih _).cons e

theorem warningsToLog_sound (ro : List relevantObject) (alreadyShown : List String)
    (events earlier : List Event) :
    ∀ e ∈ warningsToLog ro alreadyShown events earlier,
      e.Type_ = "Warning" ∧ e.Name ∉ alreadyShown ∧ eventMatches e ro = true ∧
        e.Name ∉ earlier.map (fun d => d.Name) := by
  induction events generalizing earlier with
  | nil => simp [warningsToLog]
  | cons e rest ih =>
    intro x hx
    unfold warningsToLog at hx
    split at hx
    · rename_i hc
      rcases List.mem_cons.mp hx with h | h
      · subst h; exact ⟨hc.1, hc.2.1, hc.2.2.2, hc.2.2.1⟩
      · obtain ⟨a, b, c, d⟩ := ih _ x h
        refine ⟨a, b, c, ?_⟩
        intro hm
        exact d (by simp only [List.map_append, List.mem_append]; exact Or.inl hm)
    · exact ih _ x hx

theorem warningsToLog_nodup (ro : List relevantObject) (alreadyShown : List String)
    (events earlier : List Event) :
    ((warningsToLog ro alreadyShown events earlier).map (fun d => d.Name)).Nodup := by
  induction events generalizing earlier with
  | nil => simp [warningsToLog]
  | cons e rest ih =>
    unfold warningsToLog
    split
    · rw [List.map_cons, List.nodup_cons]
      refine ⟨?_, ih _⟩
      intro hm
      obtain ⟨x, hx, hxe⟩ := List.mem_map.mp hm
      have := (warningsToLog_sound ro alreadyShown rest (earlier ++ [e]) x hx).2.2.2
      apply this
      simp only [List.map_append, List.map_cons, List.map_nil, List.mem_append,
        List.mem_singleton]
      exact Or.inr hxe
    · exact ih _

theorem warningsToLog_complete (ro : List relevantObject) (alreadyShown : List String)
    (events earlier : List Event) :
    ∀ e ∈ events, e.Type_ = "Warning" → e.Name ∉ alreadyShown → eventMatches e ro = true →
      e.Name ∈ earlier.map (fun d => d.Name) ∨
      e.Name ∈ (warningsToLog ro alreadyShown events earlier).map (fun d => d.Name) := by
  induction events generalizing earlier with
  | nil => intro e he; cases he
  | cons x rest ih =>
    intro e he h1 h2 h3
    unfold warningsToLog
    rcases List.mem_cons.mp he with h | h
    · subst h
      by_cases h4 : e.Name ∈ earlier.map (fun d => d.Name)
      · exact Or.inl h4
      · right
        rw [if_pos ⟨h1, h2, h4, h3⟩]
        simp
    · split
      · rcases ih (earlier ++ [x]) e h h1 h2 h3 with h5 | h5
        · simp only [List.map_append, List.map_cons, List.map_nil, List.mem_append,
            List.mem_singleton] at h5
          rcases h5 with h6 | h6
          · exact Or.inl h6
          · right; rw [List.map_cons, h6]; exact List.mem_cons_self _ _
        · right; rw [List.map_cons]; exact List.mem_cons_of_mem _ h5
      · exact ih earlier e h h1 h2 h3

theorem displayWarnings_ok (ro : List relevantObject) (ns : String) (client : Client)
    (q : EventQuery) (alreadyShown : List String) (items : List Event)
    (hq : q client ns = .ok items) :
    displayWarnings ro ns client q alreadyShown =
      (alreadyShown ++ (warningsToLog ro alreadyShown (sortedEvents items) []).map
          (fun d => d.Name),
        (warningsToLog ro alreadyShown (sortedEvents items) []).map eventLine) := by
  have h := displayLoop_eq ro alreadyShown (sortedEvents items) []
  simp only [List.map_nil, List.append_nil] at h
  unfold displayWarnings
  rw [hq]
  exact h

/-- C13 (what `displayWarnings` logs).  When the event list call succeeds with
`items`, there is an order `sorted` of the fetched events, a permutation of
`items` with the later creation time first, in which the call walks them: the
events logged are those the specification names (`warningsToLog`: Type
`Warning`, name not in `alreadyShown` and not logged earlier in the call,
matching `relevantObjects`), one line each in that order, and the result is
`alreadyShown` followed by their names.  So the logged events are a
subsequence of the sorted events without a repeated name, each is a matching
warning whose name was not shown, no event of another Type is logged, and
every matching warning of `items` whose name was not shown has its name
logged.  The order among events of equal creation time is left open. -/
theorem C13_displayWarnings_logs_new_warnings (ro : List relevantObject) (ns : String)
    (client : Client) (q : EventQuery) (alreadyShown : List String) (items : List Event)
    (hq : q client ns = .ok items) :
    ∃ sorted : List Event, sorted.Perm items ∧
      sorted.Pairwise (fun a b => b.CreationTimestamp ≤ a.CreationTimestamp) ∧
      displayWarnings ro ns client q alreadyShown =
        (alreadyShown ++ (warningsToLog ro alreadyShown sorted []).map (fun d => d.Name),
          (warningsToLog ro alreadyShown sorted []).map eventLine) ∧
      (warningsToLog ro alreadyShown sorted []).Sublist sorted ∧
      ((warningsToLog ro alreadyShown sorted []).map (fun d => d.Name)).Nodup ∧
      (∀ e ∈ warningsToLog ro alreadyShown sorted [],
        e ∈ items ∧ e.Type_ = "Warning" ∧ e.Name ∉ alreadyShown ∧ eventMatches e ro = true) ∧
      (∀ e ∈ items, e.Type_ = "Warning" → e.Name ∉ alreadyShown → eventMatches e ro = true →
        e.Name ∈ (warningsToLog ro alreadyShown sorted []).map (fun d => d.Name)) := by
  refine ⟨sortedEvents items, sortSlice_perm _ items,
    sortSlice_sorted (fun e : Event => e.CreationTimestamp) items,
    displayWarnings_ok ro ns client q alreadyShown items hq,
    warningsToLog_sublist ro alreadyShown _ [], warningsToLog_nodup ro alreadyShown _ [], ?_, ?_⟩
  · intro e he
    obtain ⟨a, b, c, _⟩ := warningsToLog_sound ro alreadyShown _ [] e he
    exact ⟨(sortSlice_perm _ items).mem_iff.mp
      ((warningsToLog_sublist ro alreadyShown _ []).subset he), a, b, c⟩
  · intro e he h1 h2 h3
    have hmem : e ∈ sortedEvents items := (sortSlice_perm _ items).mem_iff.mpr he
    rcases warningsToLog_complete ro alreadyShown _ [] e hmem h1 h2 h3 with h | h
    · simp at h
    · exact h

theorem C13_displayWarnings_logs_new_warnings_witness :
    itemsQuery 7 "default" = .ok sampleItems ∧
    displayWarnings (relevantObjectsFromPod (samplePod "web-1" 100 "Pending")) "default" 7
        itemsQuery ["evt-0"]
      = (["evt-0", "evt-1", "evt-2"],
          [eventLine (sampleWarning "evt-1" 50), eventLine (sampleWarning "evt-2" 10)]) ∧
    (∃ sorted : List Event, sorted.Perm sampleItems ∧
      sorted.Pairwise (fun a b => b.CreationTimestamp ≤ a.CreationTimestamp) ∧
      displayWarnings (relevantObjectsFromPod (samplePod "web-1" 100 "Pending")) "default" 7
          itemsQuery ["evt-0"] =
        (["evt-0"] ++ (warningsToLog (relevantObjectsFromPod (samplePod "web-1" 100 "Pending"))
            ["evt-0"] sorted []).map (fun d => d.Name),
          (warningsToLog (relevantObjectsFromPod (samplePod "web-1" 100 "Pending"))
            ["evt-0"] sorted []).map eventLine) ∧
      (warningsToLog (relevantObjectsFromPod (samplePod "web-1" 100 "Pending"))
        ["evt-0"] sorted []).Sublist sorted ∧
      ((warningsToLog (relevantObjectsFromPod (samplePod "web-1" 100 "Pending"))
        ["evt-0"] sorted []).map (fun d => d.Name)).Nodup ∧
      (∀ e ∈ warningsToLog (relevantObjectsFromPod (samplePod "web-1" 100 "Pending"))
          ["evt-0"] sorted [],
        e ∈ sampleItems ∧ e.Type_ = "Warning" ∧ e.Name ∉ ["evt-0"] ∧
          eventMatches e (relevantObjectsFromPod (samplePod "web-1" 100 "Pending")) = true) ∧
      (∀ e ∈ sampleItems, e.Type_ = "Warning" → e.Name ∉ ["evt-0"] →
        eventMatches e (relevantObjectsFromPod (samplePod "web-1" 100 "Pending")) = true →
        e.Name ∈ (warningsToLog (relevantObjectsFromPod (samplePod "web-1" 100 "Pending"))
          ["evt-0"] sorted []).map (fun d => d.Name))) :=
  ⟨rfl, by decide,
    C13_displayWarnings_logs_new_warnings
      (relevantObjectsFromPod (samplePod "web-1" 100 "Pending")) "default" 7 itemsQuery
      ["evt-0"] sampleItems rfl⟩

/-- C11, the code at the failing input.  Three `PrintPodInfo` calls for the
same pod on one printer, each more than 10 seconds after the one before; the
cluster holds the same warning event `evt-1` throughout, and the event list
call of the second report fails.  The first report logs the event and records
its name, the failed query of the second report empties `shownEvents`, and the
third report logs the event again.  When the second query succeeds instead,
the third report does not log it again. -/
theorem C11_event_logged_again_after_failed_query :
    (runReports sampleKubectl (samplePrinter []) resetCalls).map
        (fun r => (r.1.shownEvents, decide (eventLine (sampleWarning "evt-1" 50) ∈ r.2)))
      = [(["evt-1"], true), ([], false), (["evt-1"], true)] ∧
    (runReports sampleKubectl (samplePrinter [])
        [⟨Report.podInfo (samplePod "web-1" 100 "Pending"), atSecond 11, warningQuery⟩,
         ⟨Report.podInfo (samplePod "web-1" 100 "Pending"), atSecond 22, warningQuery⟩,
         ⟨Report.podInfo (samplePod "web-1" 100 "Pending"), atSecond 33, warningQuery⟩]).map
        (fun r => (r.1.shownEvents, decide (eventLine (sampleWarning "evt-1" 50) ∈ r.2)))
      = [(["evt-1"], true), (["evt-1"], false), (["evt-1"], false)] := by
  decide

/-- C12, the code at the failing input.  A printer that has shown the event
`evt-1` makes a report whose event list call fails: afterwards `shownEvents`
is empty, for `PrintNotFoundWarning` and for `PrintPodInfo`.  The other paths
keep every name: a report inside the cooldown, `PrintPodWarning`, and a report
whose event list call succeeds. -/
theorem C12_failed_query_empties_shownEvents :
    (PrintNotFoundWarning failingQuery (samplePrinter ["evt-1"]) (atSecond 11)).1.shownEvents
      = [] ∧
    (PrintPodInfo sampleKubectl failingQuery (samplePrinter ["evt-1"]) (atSecond 11)
        (samplePod "web-1" 100 "Pending")).1.shownEvents = [] ∧
    (∀ (k : Kubectl) (u : PodInfoPrinter) (c : ReportCall),
      cooldownOver u c.clk.since = false → (runReport k u c).1.shownEvents = u.shownEvents) ∧
    (∀ (k : Kubectl) (u : PodInfoPrinter) (clk : Clock) (pod : Pod),
      (PrintPodWarning k u clk pod).1.shownEvents = u.shownEvents) ∧
    (∀ (k : Kubectl) (q : EventQuery) (u : PodInfoPrinter) (clk : Clock) (pod : Pod)
        (items : List Event), q u.client pod.Namespace = .ok items →
      ∀ n ∈ u.shownEvents, n ∈ (PrintPodInfo k q u clk pod).1.shownEvents) ∧
    (∀ (q : EventQuery) (u : PodInfoPrinter) (clk : Clock) (items : List Event),
      q u.client u.namespace_ = .ok items →
      ∀ n ∈ u.shownEvents, n ∈ (PrintNotFoundWarning q u clk).1.shownEvents) := by
  refine ⟨by decide, by decide, ?_, ?_, ?_, ?_⟩
  · intro k u c h
    rw [runReport_quiet k u c (by simp [h])]
  · intro k u clk pod
    unfold PrintPodWarning
    split <;> rfl
  · intro k q u clk pod items hq n hn
    unfold PrintPodInfo
    split
    · simp only [displayWarnings_ok _ _ _ q _ items hq]
      exact List.mem_append_left _ hn
    · exact hn
  · intro q u clk items hq n hn
    unfold PrintNotFoundWarning
    split
    · simp only [displayWarnings_ok _ _ _ q _ items hq]
      exact List.mem_append_left _ hn
    · exact hn

theorem TrimPrefix_append (pre s : String) : TrimPrefix (pre ++ s) pre = s := by
  have h : pre.data.isPrefixOf (pre ++ s).data = true := by
    rw [String.data_append, List.isPrefixOf_iff_prefix]
    exact List.prefix_append _ _
  simp [TrimPrefix, h, String.data_append]

theorem TrimPrefix_none (s pre : String) (h : pre.data.isPrefixOf s.data = false) :
    TrimPrefix s pre = s := by
  simp [TrimPrefix, h]

/-- C14, the claim fails.  With the status helper that reads the reason of the
pod status and the sample table: the status `Init:Init:Error` is `Init:`
followed by the status `Init:Error`, the pod with the second status is
critical (its label after the removal is `Error`) and the pod with the first
is not (its label after the removal is `Init:Error`, absent from the table). -/
theorem C14_only_one_Init_removed :
    reasonKubectl.GetPodStatus (reasonPod "a" "Init:Init:Error")
      = "Init:" ++ reasonKubectl.GetPodStatus (reasonPod "b" "Init:Error") ∧
    HasPodProblem reasonKubectl (reasonPod "a" "Init:Init:Error") = false ∧
    HasPodProblem reasonKubectl (reasonPod "b" "Init:Error") = true := by
  decide

/-- C14, amended.  `HasPodProblem(pod)` is the value of the critical-status
table at the derived status of the pod with one leading `Init:` removed.  So a
pod whose derived status is `Init:` followed by `s` is classified by the
table's value at `s`, which is how a pod whose derived status is `s` is
classified when `s` does not itself start with `Init:`.  A label that the
table (a Go map, given by its entries) does not hold is not critical. -/
theorem C14_HasPodProblem_table_lookup (k : Kubectl) (pod p1 p2 : Pod)
    (h1 : k.GetPodStatus p1 = "Init:" ++ k.GetPodStatus p2)
    (h2 : "Init:".data.isPrefixOf (k.GetPodStatus p2).data = false) :
    HasPodProblem k pod = k.CriticalStatus (TrimPrefix (k.GetPodStatus pod) "Init:") ∧
    HasPodProblem k p1 = k.CriticalStatus (k.GetPodStatus p2) ∧
    HasPodProblem k p1 = HasPodProblem k p2 ∧
    (∀ (getStatus : Pod → String) (table : List (String × Bool)) (p : Pod),
      (∀ b, (TrimPrefix (getStatus p) "Init:", b) ∉ table) →
        HasPodProblem ⟨getStatus, mapRead table⟩ p = false) := by
  have e1 : HasPodProblem k p1 = k.CriticalStatus (k.GetPodStatus p2) := by
    simp only [HasPodProblem, h1, TrimPrefix_append]
  have e2 : HasPodProblem k p2 = k.CriticalStatus (k.GetPodStatus p2) := by
    simp only [HasPodProblem, TrimPrefix_none _ _ h2]
  refine ⟨rfl, e1, e1.trans e2.symm, ?_⟩
  intro getStatus table p habs
  have hl : table.lookup (TrimPrefix (getStatus p) "Init:") = none := by
    rw [List.lookup_eq_none_iff]
    intro a ha
    by_contra hk
    have hk1 : TrimPrefix (getStatus p) "Init:" = a.1 := by simpa using hk
    apply habs a.2
    rw [hk1]
    exact ha
  simp only [HasPodProblem, mapRead, hl]

theorem C14_HasPodProblem_table_lookup_witness :
    reasonKubectl.GetPodStatus (reasonPod "a" "Init:CrashLoopBackOff")
      = "Init:" ++ reasonKubectl.GetPodStatus (reasonPod "b" "CrashLoopBackOff") ∧
    "Init:".data.isPrefixOf
      (reasonKubectl.GetPodStatus (reasonPod "b" "CrashLoopBackOff")).data = false ∧
    HasPodProblem reasonKubectl (reasonPod "a" "Init:CrashLoopBackOff") = true ∧
    (HasPodProblem reasonKubectl (reasonPod "c" "ContainerCreating")
      = reasonKubectl.CriticalStatus
          (TrimPrefix (reasonKubectl.GetPodStatus (reasonPod "c" "ContainerCreating")) "Init:") ∧
    HasPodProblem reasonKubectl (reasonPod "a" "Init:CrashLoopBackOff")
      = reasonKubectl.CriticalStatus
          (reasonKubectl.GetPodStatus (reasonPod "b" "CrashLoopBackOff")) ∧
    HasPodProblem reasonKubectl (reasonPod "a" "Init:CrashLoopBackOff")
      = HasPodProblem reasonKubectl (reasonPod "b" "CrashLoopBackOff") ∧
    (∀ (getStatus : Pod → String) (table : List (String × Bool)) (p : Pod),
      (∀ b, (TrimPrefix (getStatus p) "Init:", b) ∉ table) →
        HasPodProblem ⟨getStatus, mapRead table⟩ p = false)) :=
  ⟨by decide, by decide, by decide,
    C14_HasPodProblem_table_lookup reasonKubectl (reasonPod "c" "ContainerCreating")
      (reasonPod "a" "Init:CrashLoopBackOff") (reasonPod "b" "CrashLoopBackOff")
      (by decide) (by decide)⟩

theorem SelectPod_critical_single (k : Kubectl) (q : EventQuery) (u : untilNewestRunning)
    (clk : Clock) (pod : Pod) (hnow : ¬ clk.now < u.initialDelay)
    (hp : HasPodProblem k pod = true) :
    SelectPod k q u clk [some pod] = .ok ⟨false, none, none,
      { u with podInfoPrinter := (PrintPodWarning k u.podInfoPrinter clk pod).1 },
      [some pod], (PrintPodWarning k u.podInfoPrinter clk pod).2⟩ := by
  unfold SelectPod
  rw [if_neg hnow, if_neg (by simp)]
  simp only [sortSliceE, sortLoopE, sinkE, List.reverse_cons, List.reverse_nil,
    List.nil_append, hp, if_true]

theorem PrintPodWarning_frame (k : Kubectl) (u : PodInfoPrinter) (clk : Clock) (pod : Pod) :
    (PrintPodWarning k u clk pod).1 = u ∨
      (PrintPodWarning k u clk pod).1 = { u with lastWarning := clk.stamp } := by
  unfold PrintPodWarning
  split
  · exact Or.inr rfl
  · exact Or.inl rfl

/-! ## The critical report -/

/-- C15 (the critical report makes no event query).  For every pod, critical
or not, and every printer state, `PrintPodWarning` returns the printer it was
given or that printer with `lastWarning` set to the clock reading:
`shownEvents`, `namespace` and `client` are unchanged; the cluster is no
argument of it.  `SelectPod` on a single candidate `crit` with a critical
status returns `(false, nil, nil)` at every clock reading, with the same
result whatever the cluster would answer to an event query, and leaves
`shownEvents`, `namespace` and `client` as they were. -/
theorem C15_critical_report_keeps_shownEvents (k : Kubectl) (q1 q2 : EventQuery)
    (u : PodInfoPrinter) (v : untilNewestRunning) (clk : Clock) (pod crit : Pod)
    (h : HasPodProblem k crit = true) :
    ((PrintPodWarning k u clk pod).1 = u ∨
      (PrintPodWarning k u clk pod).1 = { u with lastWarning := clk.stamp }) ∧
    (PrintPodWarning k u clk pod).1.shownEvents = u.shownEvents ∧
    (PrintPodWarning k u clk pod).1.namespace_ = u.namespace_ ∧
    (PrintPodWarning k u clk pod).1.client = u.client ∧
    SelectPod k q1 v clk [some crit] = SelectPod k q2 v clk [some crit] ∧
    (∃ r, SelectPod k q1 v clk [some crit] = .ok r ∧
      r.found = false ∧ r.target = none ∧ r.err = none ∧
      r.strategy.podInfoPrinter.shownEvents = v.podInfoPrinter.shownEvents ∧
      r.strategy.podInfoPrinter.namespace_ = v.podInfoPrinter.namespace_ ∧
      r.strategy.podInfoPrinter.client = v.podInfoPrinter.client) := by
  have hframe : ∀ (w : PodInfoPrinter) (p : Pod),
      (PrintPodWarning k w clk p).1.shownEvents = w.shownEvents ∧
      (PrintPodWarning k w clk p).1.namespace_ = w.namespace_ ∧
      (PrintPodWarning k w clk p).1.client = w.client := by
    intro w p
    rcases PrintPodWarning_frame k w clk p with h1 | h1 <;> rw [h1] <;> exact ⟨rfl, rfl, rfl⟩
  refine ⟨PrintPodWarning_frame k u clk pod, (hframe u pod).1, (hframe u pod).2.1,
    (hframe u pod).2.2, ?_, ?_⟩
  · by_cases h1 : clk.now < v.initialDelay
    · rw [SelectPod_early k q1 v clk _ h1, SelectPod_early k q2 v clk _ h1]
    · rw [SelectPod_critical_single k q1 v clk crit h1 h,
        SelectPod_critical_single k q2 v clk crit h1 h]
  · by_cases h1 : clk.now < v.initialDelay
    · exact ⟨_, SelectPod_early k q1 v clk _ h1, rfl, rfl, rfl, rfl, rfl, rfl⟩
    · exact ⟨_, SelectPod_critical_single k q1 v clk crit h1 h, rfl, rfl, rfl,
        (hframe v.podInfoPrinter crit).1, (hframe v.podInfoPrinter crit).2.1,
        (hframe v.podInfoPrinter crit).2.2⟩

theorem C15_critical_report_keeps_shownEvents_witness :
    HasPodProblem sampleKubectl (samplePod "web-1" 100 "CrashLoopBackOff") = true ∧
    HasPodProblem sampleKubectl (samplePod "web-2" 100 "Pending") = false ∧
    PrintPodWarning sampleKubectl (samplePrinter ["evt-1"]) (atSecond 11)
        (samplePod "web-2" 100 "Pending")
      = ({ samplePrinter ["evt-1"] with lastWarning := 11 * Second },
          [⟨Level.Warn, "Pod web-2 has critical status: Pending. "
            ++ "DevSpace will continue waiting, but this operation might timeout"⟩]) ∧
    SelectPod sampleKubectl failingQuery
        { sampleStrategy with podInfoPrinter := samplePrinter ["evt-1"] } (atSecond 11)
        [some (samplePod "web-1" 100 "CrashLoopBackOff")]
      = .ok ⟨false, none, none,
          { sampleStrategy with
            podInfoPrinter := { samplePrinter ["evt-1"] with lastWarning := 11 * Second } },
          [some (samplePod "web-1" 100 "CrashLoopBackOff")],
          [⟨Level.Warn, "Pod web-1 has critical status: CrashLoopBackOff. "
            ++ "DevSpace will continue waiting, but this operation might timeout"⟩]⟩ ∧
    (((PrintPodWarning sampleKubectl (samplePrinter ["evt-1"]) (atSecond 11)
          (samplePod "web-2" 100 "Pending")).1 = samplePrinter ["evt-1"] ∨
      (PrintPodWarning sampleKubectl (samplePrinter ["evt-1"]) (atSecond 11)
          (samplePod "web-2" 100 "Pending")).1
        = { samplePrinter ["evt-1"] with lastWarning := (atSecond 11).stamp }) ∧
    (PrintPodWarning sampleKubectl (samplePrinter ["evt-1"]) (atSecond 11)
        (samplePod "web-2" 100 "Pending")).1.shownEvents
      = (samplePrinter ["evt-1"]).shownEvents ∧
    (PrintPodWarning sampleKubectl (samplePrinter ["evt-1"]) (atSecond 11)
        (samplePod "web-2" 100 "Pending")).1.namespace_
      = (samplePrinter ["evt-1"]).namespace_ ∧
    (PrintPodWarning sampleKubectl (samplePrinter ["evt-1"]) (atSecond 11)
        (samplePod "web-2" 100 "Pending")).1.client
      = (samplePrinter ["evt-1"]).client ∧
    SelectPod sampleKubectl failingQuery
        { sampleStrategy with podInfoPrinter := samplePrinter ["evt-1"] } (atSecond 11)
        [some (samplePod "web-1" 100 "CrashLoopBackOff")]
      = SelectPod sampleKubectl warningQuery
        { sampleStrategy with podInfoPrinter := samplePrinter ["evt-1"] } (atSecond 11)
        [some (samplePod "web-1" 100 "CrashLoopBackOff")] ∧
    (∃ r, SelectPod sampleKubectl failingQuery
        { sampleStrategy with podInfoPrinter := samplePrinter ["evt-1"] } (atSecond 11)
        [some (samplePod "web-1" 100 "CrashLoopBackOff")] = .ok r ∧
      r.found = false ∧ r.target = none ∧ r.err = none ∧
      r.strategy.podInfoPrinter.shownEvents
        = ({ sampleStrategy with podInfoPrinter := samplePrinter ["evt-1"] } :
            untilNewestRunning).podInfoPrinter.shownEvents ∧
      r.strategy.podInfoPrinter.namespace_
        = ({ sampleStrategy with podInfoPrinter := samplePrinter ["evt-1"] } :
            untilNewestRunning).podInfoPrinter.namespace_ ∧
      r.strategy.podInfoPrinter.client
        = ({ sampleStrategy with podInfoPrinter := samplePrinter ["evt-1"] } :
            untilNewestRunning).podInfoPrinter.client)) :=
  ⟨by decide, by decide, rfl, rfl,
    C15_critical_report_keeps_shownEvents sampleKubectl failingQuery warningQuery
      (samplePrinter ["evt-1"]) { sampleStrategy with podInfoPrinter := samplePrinter ["evt-1"] }
      (atSecond 11) (samplePod "web-2" 100 "Pending")
      (samplePod "web-1" 100 "CrashLoopBackOff") (by decide)⟩

/-! ## The relevant objects of a pod -/

theorem claimObjects_eq (volumes : List Volume) :
    claimObjects volumes = volumes.filterMap (fun v =>
      v.PersistentVolumeClaim.map (fun pvc => ⟨"PersistentVolumeClaim", pvc.ClaimName, ""⟩)) := by
  induction volumes with
  | nil => rfl
  | cons v rest ih =>
    unfold claimObjects
    cases hv : v.PersistentVolumeClaim with
    | none => simp [List.filterMap_cons, hv, ih]
    | some pvc => simp [List.filterMap_cons, hv, ih]

theorem eventMatches_cons (e : Event) (o : relevantObject) (os : List relevantObject) :
    eventMatches e (o :: os) = true ↔
      ((o.Name = "" ∨ e.InvolvedObject.Name = o.Name) ∧
        (o.Kind = "" ∨ e.InvolvedObject.Kind = o.Kind) ∧
        (o.UID = "" ∨ e.InvolvedObject.UID = o.UID)) ∨ eventMatches e os = true := by
  rw [eventMatches]
  by_cases h1 : o.Name ≠ "" ∧ e.InvolvedObject.Name ≠ o.Name
  · rw [if_pos h1]
    constructor
    · exact Or.inr
    · rintro (h | h)
      · rcases h.1 with h3 | h3
        · exact absurd h3 h1.1
        · exact absurd h3 h1.2
      · exact h
  · rw [if_neg h1]
    by_cases h2 : o.Kind ≠ "" ∧ e.InvolvedObject.Kind ≠ o.Kind
    · rw [if_pos h2]
      constructor
      · exact Or.inr
      · rintro (h | h)
        · rcases h.2.1 with h3 | h3
          · exact absurd h3 h2.1
          · exact absurd h3 h2.2
        · exact h
    · rw [if_neg h2]
      by_cases h3 : o.UID ≠ "" ∧ e.InvolvedObject.UID ≠ o.UID
      · rw [if_pos h3]
        constructor
        · exact Or.inr
        · rintro (h | h)
          · rcases h.2.2 with h4 | h4
            · exact absurd h4 h3.1
            · exact absurd h4 h3.2
          · exact h
      · rw [if_neg h3]
        simp only [true_iff]
        left
        refine ⟨?_, ?_, ?_⟩
        · by_contra hc
          exact h1 ⟨fun h => hc (Or.inl h), fun h => hc (Or.inr h)⟩
        · by_contra hc
          exact h2 ⟨fun h => hc (Or.inl h), fun h => hc (Or.inr h)⟩
        · by_contra hc
          exact h3 ⟨fun h => hc (Or.inl h), fun h => hc (Or.inr h)⟩

/-- An event matches the objects of the claims of `volumes` when it is about a
PersistentVolumeClaim and a claim name is empty or the name of its object. -/
theorem eventMatches_claimObjects (e : Event) (volumes : List Volume) :
    eventMatches e (claimObjects volumes) = true ↔
      ∃ v ∈ volumes, ∃ pvc, v.PersistentVolumeClaim = some pvc ∧
        e.InvolvedObject.Kind = "PersistentVolumeClaim" ∧
        (pvc.ClaimName = "" ∨ e.InvolvedObject.Name = pvc.ClaimName) := by
  induction volumes with
  | nil => simp [claimObjects, eventMatches]
  | cons v rest ih =>
    unfold claimObjects
    cases hv : v.PersistentVolumeClaim with
    | none =>
      simp only [ih]
      constructor
      · rintro ⟨w, hw, h⟩
        exact ⟨w, List.mem_cons_of_mem _ hw, h⟩
      · rintro ⟨w, hw, pvc, h1, h2⟩
        rcases List.mem_cons.mp hw with h | h
        · subst h; rw [hv] at h1; cases h1
        · exact ⟨w, h, pvc, h1, h2⟩
    | some pvc =>
      simp only [eventMatches_cons, ih]
      constructor
      · rintro (h | ⟨w, hw, h⟩)
        · refine ⟨v, List.mem_cons_self _ _, pvc, hv, ?_, h.1⟩
          rcases h.2.1 with h3 | h3
          · simp at h3
          · exact h3
        · exact ⟨w, List.mem_cons_of_mem _ hw, h⟩
      · rintro ⟨w, hw, pvc1, h1, h2, h3⟩
        rcases List.mem_cons.mp hw with h | h
        · subst h
          rw [hv] at h1
          cases h1
          exact Or.inl ⟨h3, Or.inr h2, Or.inl trivial⟩
        · exact Or.inr ⟨w, h, pvc1, h1, h2, h3⟩

theorem eventMatches_relevantObjectsFromPod (e : Event) (pod : Pod) :
    eventMatches e (relevantObjectsFromPod pod) = true ↔
      (e.InvolvedObject.Kind = "Pod" ∧ (pod.Name = "" ∨ e.InvolvedObject.Name = pod.Name) ∧
        (pod.UID = "" ∨ e.InvolvedObject.UID = pod.UID)) ∨
      ∃ v ∈ pod.Spec.Volumes, ∃ pvc, v.PersistentVolumeClaim = some pvc ∧
        e.InvolvedObject.Kind = "PersistentVolumeClaim" ∧
        (pvc.ClaimName = "" ∨ e.InvolvedObject.Name = pvc.ClaimName) := by
  unfold relevantObjectsFromPod
  rw [eventMatches_cons, eventMatches_claimObjects]
  constructor
  · rintro (h | h)
    · left
      refine ⟨?_, h.1, h.2.2⟩
      rcases h.2.1 with h3 | h3
      · simp at h3
      · exact h3
    · exact Or.inr h
  · rintro (h | h)
    · exact Or.inl ⟨h.2.1, Or.inr h.1, h.2.2⟩
    · exact Or.inr h

/-- C16, the claim fails.  The pod `web-1` with an empty UID: its first
relevant object has an empty UID, which the matcher does not compare, so the
warning about a pod `web-1` with the UID `uid-of-another-pod` matches and the
not-ready report logs it, although the UID of its object is not the UID of the
pod. -/
theorem C16_empty_UID_matches_other_pod :
    relevantObjectsFromPod podWithoutUID = [⟨"Pod", "web-1", ""⟩] ∧
    strangerWarning.InvolvedObject.UID ≠ podWithoutUID.UID ∧
    eventMatches strangerWarning (relevantObjectsFromPod podWithoutUID) = true ∧
    (PrintPodInfo sampleKubectl (fun _ _ => .ok [strangerWarning]) (samplePrinter [])
        (atSecond 11) podWithoutUID).2
      = [statusLine sampleKubectl podWithoutUID, eventLine strangerWarning] := by
  decide

/-- C16, amended.  For every pod the relevant objects are the object
`Pod` with the pod's Name and UID, followed by one object
`PersistentVolumeClaim` with the claim name and an empty UID for each volume
of the pod that references a claim, in the order of the volumes, and nothing
for the other volumes; the not-ready report passes this list to
`displayWarnings`.  For every pod, an event matches the list when it is about
a Pod and agrees with the pod's Name and UID where these are not empty, or is
about a PersistentVolumeClaim and has a referenced claim name or the claim
name is empty.  For a pod `p` whose Name, UID and claim names are not empty,
the matching events are those about this Pod with exactly its Name and UID or
about a PersistentVolumeClaim with exactly a referenced claim name. -/
theorem C16_relevant_objects_of_pod (k : Kubectl) (q : EventQuery) (u : PodInfoPrinter)
    (clk : Clock) (pod p : Pod) (e : Event)
    (hname : p.Name ≠ "") (huid : p.UID ≠ "")
    (hclaims : ∀ v ∈ p.Spec.Volumes, ∀ pvc, v.PersistentVolumeClaim = some pvc →
      pvc.ClaimName ≠ "") :
    relevantObjectsFromPod pod =
      ⟨"Pod", pod.Name, pod.UID⟩ :: pod.Spec.Volumes.filterMap (fun v =>
        v.PersistentVolumeClaim.map
          (fun pvc => ⟨"PersistentVolumeClaim", pvc.ClaimName, ""⟩)) ∧
    PrintPodInfo k q u clk pod =
      (if cooldownOver u clk.since then
        ({ u with
            shownEvents := (displayWarnings
              (⟨"Pod", pod.Name, pod.UID⟩ :: pod.Spec.Volumes.filterMap (fun v =>
                v.PersistentVolumeClaim.map
                  (fun pvc => ⟨"PersistentVolumeClaim", pvc.ClaimName, ""⟩)))
              pod.Namespace u.client q u.shownEvents).1
            lastWarning := clk.stamp },
          statusLine k pod :: (displayWarnings
            (⟨"Pod", pod.Name, pod.UID⟩ :: pod.Spec.Volumes.filterMap (fun v =>
              v.PersistentVolumeClaim.map
                (fun pvc => ⟨"PersistentVolumeClaim", pvc.ClaimName, ""⟩)))
            pod.Namespace u.client q u.shownEvents).2)
      else (u, [])) ∧
    (eventMatches e (relevantObjectsFromPod pod) = true ↔
      (e.InvolvedObject.Kind = "Pod" ∧ (pod.Name = "" ∨ e.InvolvedObject.Name = pod.Name) ∧
        (pod.UID = "" ∨ e.InvolvedObject.UID = pod.UID)) ∨
      ∃ v ∈ pod.Spec.Volumes, ∃ pvc, v.PersistentVolumeClaim = some pvc ∧
        e.InvolvedObject.Kind = "PersistentVolumeClaim" ∧
        (pvc.ClaimName = "" ∨ e.InvolvedObject.Name = pvc.ClaimName)) ∧
    (eventMatches e (relevantObjectsFromPod p) = true ↔
      (e.InvolvedObject.Kind = "Pod" ∧ e.InvolvedObject.Name = p.Name ∧
        e.InvolvedObject.UID = p.UID) ∨
      ∃ v ∈ p.Spec.Volumes, ∃ pvc, v.PersistentVolumeClaim = some pvc ∧
        e.InvolvedObject.Kind = "PersistentVolumeClaim" ∧
        e.InvolvedObject.Name = pvc.ClaimName) := by
  have hlist : relevantObjectsFromPod pod =
      ⟨"Pod", pod.Name, pod.UID⟩ :: pod.Spec.Volumes.filterMap (fun v =>
        v.PersistentVolumeClaim.map
          (fun pvc => ⟨"PersistentVolumeClaim", pvc.ClaimName, ""⟩)) := by
    unfold relevantObjectsFromPod
    rw [claimObjects_eq]
  refine ⟨hlist, ?_, eventMatches_relevantObjectsFromPod e pod, ?_⟩
  · rw [← hlist]
    unfold PrintPodInfo statusLine
    split <;> rfl
  · rw [eventMatches_relevantObjectsFromPod]
    constructor
    · rintro (⟨h1, h2, h3⟩ | ⟨v, hv, pvc, h1, h2, h3⟩)
      · left
        exact ⟨h1, h2.resolve_left hname, h3.resolve_left huid⟩
      · right
        exact ⟨v, hv, pvc, h1, h2, h3.resolve_left (hclaims v hv pvc h1)⟩
    · rintro (⟨h1, h2, h3⟩ | ⟨v, hv, pvc, h1, h2, h3⟩)
      · exact Or.inl ⟨h1, Or.inr h2, Or.inr h3⟩
      · exact Or.inr ⟨v, hv, pvc, h1, h2, Or.inr h3⟩

theorem C16_relevant_objects_of_pod_witness :
    samplePodWithClaim.Name ≠ "" ∧ samplePodWithClaim.UID ≠ "" ∧
    (∀ v ∈ samplePodWithClaim.Spec.Volumes, ∀ pvc, v.PersistentVolumeClaim = some pvc →
      pvc.ClaimName ≠ "") ∧
    relevantObjectsFromPod samplePodWithClaim
      = [⟨"Pod", "web-1", "uid-web-1"⟩, ⟨"PersistentVolumeClaim", "data", ""⟩] ∧
    relevantObjectsFromPod podWithoutUID = [⟨"Pod", "web-1", ""⟩] ∧
    eventMatches strangerWarning (relevantObjectsFromPod samplePodWithClaim) = false ∧
    relevantObjectsFromPod podWithoutUID =
      ⟨"Pod", podWithoutUID.Name, podWithoutUID.UID⟩ ::
        podWithoutUID.Spec.Volumes.filterMap (fun v =>
          v.PersistentVolumeClaim.map
            (fun pvc => ⟨"PersistentVolumeClaim", pvc.ClaimName, ""⟩)) ∧
    (eventMatches strangerWarning (relevantObjectsFromPod podWithoutUID) = true ↔
      (strangerWarning.InvolvedObject.Kind = "Pod" ∧
        (podWithoutUID.Name = "" ∨ strangerWarning.InvolvedObject.Name = podWithoutUID.Name) ∧
        (podWithoutUID.UID = "" ∨ strangerWarning.InvolvedObject.UID = podWithoutUID.UID)) ∨
      ∃ v ∈ podWithoutUID.Spec.Volumes, ∃ pvc, v.PersistentVolumeClaim = some pvc ∧
        strangerWarning.InvolvedObject.Kind = "PersistentVolumeClaim" ∧
        (pvc.ClaimName = "" ∨ strangerWarning.InvolvedObject.Name = pvc.ClaimName)) ∧
    (eventMatches strangerWarning (relevantObjectsFromPod samplePodWithClaim) = true ↔
      (strangerWarning.InvolvedObject.Kind = "Pod" ∧
        strangerWarning.InvolvedObject.Name = samplePodWithClaim.Name ∧
        strangerWarning.InvolvedObject.UID = samplePodWithClaim.UID) ∨
      ∃ v ∈ samplePodWithClaim.Spec.Volumes, ∃ pvc, v.PersistentVolumeClaim = some pvc ∧
        strangerWarning.InvolvedObject.Kind = "PersistentVolumeClaim" ∧
        strangerWarning.InvolvedObject.Name = pvc.ClaimName) :=
  have hclaims : ∀ v ∈ samplePodWithClaim.Spec.Volumes, ∀ pvc,
      v.PersistentVolumeClaim = some pvc → pvc.ClaimName ≠ "" := by
    intro v hv pvc h
    simp only [samplePodWithClaim, List.mem_cons, List.mem_singleton, List.not_mem_nil,
      or_false] at hv
    rcases hv with hv | hv <;> subst hv <;> simp at h
    subst h
    decide
  ⟨by decide, by decide, hclaims, by decide, by decide, by decide,
    (C16_relevant_objects_of_pod sampleKubectl noEvents (samplePrinter []) (atSecond 11)
      podWithoutUID samplePodWithClaim strangerWarning (by decide) (by decide) hclaims).1,
    (C16_relevant_objects_of_pod sampleKubectl noEvents (samplePrinter []) (atSecond 11)
      podWithoutUID samplePodWithClaim strangerWarning (by decide) (by decide) hclaims).2.2.1,
    (C16_relevant_objects_of_pod sampleKubectl noEvents (samplePrinter []) (atSecond 11)
      podWithoutUID samplePodWithClaim strangerWarning (by decide) (by decide) hclaims).2.2.2⟩

/-! ## The last-warning timestamp -/

theorem runReports_lastWarning_chain (k : Kubectl) (calls : List ReportCall) :
    ∀ (u : PodInfoPrinter), (∀ c ∈ calls, c.clk.since ≤ c.clk.stamp) →
      List.Chain (fun a b => a ≤ b) u.lastWarning
        ((runReports k u calls).map (fun r => r.1.lastWarning)) := by
  induction calls with
  | nil => intro u _; exact List.Chain.nil
  | cons c rest ih =>
    intro u hclk
    simp only [runReports, List.map_cons]
    exact List.Chain.cons
      (runReport_lastWarning_mono k u c (hclk c (List.mem_cons_self _ _)))
      (ih _ (fun x hx => hclk x (List.mem_cons_of_mem _ hx)))

/-- C17 (the last-warning timestamp never goes back).  A report call
(`PrintPodInfo`, `PrintNotFoundWarning` or `PrintPodWarning`) that does not
read an earlier time when it stores `lastWarning` than when it tested the
cooldown leaves `lastWarning` at least as late as it was; a call that the
cooldown rejects leaves the printer, so `lastWarning`, unchanged and logs
nothing.  Over a sequence of such calls `lastWarning` is non-decreasing from
call to call. -/
theorem C17_lastWarning_monotone (k : Kubectl) (u : PodInfoPrinter) (c : ReportCall)
    (calls : List ReportCall)
    (hc : c.clk.since ≤ c.clk.stamp) (hcalls : ∀ x ∈ calls, x.clk.since ≤ x.clk.stamp) :
    u.lastWarning ≤ (runReport k u c).1.lastWarning ∧
    (cooldownOver u c.clk.since = false → runReport k u c = (u, [])) ∧
    (cooldownOver u c.clk.since = true → (runReport k u c).1.lastWarning = c.clk.stamp) ∧
    List.Chain (fun a b => a ≤ b) u.lastWarning
      ((runReports k u calls).map (fun r => r.1.lastWarning)) := by
  refine ⟨runReport_lastWarning_mono k u c hc, ?_, runReport_stamp k u c,
    runReports_lastWarning_chain k calls u hcalls⟩
  intro h
  exact runReport_quiet k u c (by simp [h])

theorem C17_lastWarning_monotone_witness :
    (⟨Report.notFound, atSecond 16, noEvents⟩ : ReportCall).clk.since
      ≤ (⟨Report.notFound, atSecond 16, noEvents⟩ : ReportCall).clk.stamp ∧
    (∀ x ∈ sampleCalls, x.clk.since ≤ x.clk.stamp) ∧
    (runReports sampleKubectl sampleStrategy.podInfoPrinter sampleCalls).map
        (fun r => r.1.lastWarning) = [16 * Second, 16 * Second, 27 * Second] ∧
    (sampleStrategy.podInfoPrinter.lastWarning
      ≤ (runReport sampleKubectl sampleStrategy.podInfoPrinter
          ⟨Report.notFound, atSecond 16, noEvents⟩).1.lastWarning ∧
    (cooldownOver sampleStrategy.podInfoPrinter
        (⟨Report.notFound, atSecond 16, noEvents⟩ : ReportCall).clk.since = false →
      runReport sampleKubectl sampleStrategy.podInfoPrinter
          ⟨Report.notFound, atSecond 16, noEvents⟩ = (sampleStrategy.podInfoPrinter, [])) ∧
    (cooldownOver sampleStrategy.podInfoPrinter
        (⟨Report.notFound, atSecond 16, noEvents⟩ : ReportCall).clk.since = true →
      (runReport sampleKubectl sampleStrategy.podInfoPrinter
          ⟨Report.notFound, atSecond 16, noEvents⟩).1.lastWarning
        = (⟨Report.notFound, atSecond 16, noEvents⟩ : ReportCall).clk.stamp) ∧
    List.Chain (fun a b => a ≤ b) sampleStrategy.podInfoPrinter.lastWarning
      ((runReports sampleKubectl sampleStrategy.podInfoPrinter sampleCalls).map
        (fun r => r.1.lastWarning))) :=
  ⟨by decide, by decide, by decide,
    C17_lastWarning_monotone sampleKubectl sampleStrategy.podInfoPrinter
      ⟨Report.notFound, atSecond 16, noEvents⟩ sampleCalls (by decide) (by decide)⟩

/-! ## Repeated selection -/

theorem sink_sorted_eq {α : Type} (key : α → Int) (x : α) (done : List α)
    (h : ∀ d ∈ done, key x ≤ key d) :
    sink (fun a b => decide (key a > key b)) x done = x :: done := by
  cases done with
  | nil => rfl
  | cons p left =>
    have hp : ¬ key x > key p := not_lt.mpr (h p (List.mem_cons_self _ _))
    simp [sink, hp]

theorem sortLoop_of_sorted {α : Type} (key : α → Int) (todo done : List α)
    (h : (done.reverse ++ todo).Pairwise (fun a b => key b ≤ key a)) :
    sortLoop (fun a b => decide (key a > key b)) todo done = done.reverse ++ todo := by
  induction todo generalizing done with
  | nil => simp [sortLoop]
  | cons x rest ih =>
    have hx : ∀ d ∈ done, key x ≤ key d := by
      intro d hd
      rw [List.pairwise_append] at h
      exact h.2.2 d (List.mem_reverse.mpr hd) x (List.mem_cons_self _ _)
    unfold sortLoop
    rw [sink_sorted_eq key x done hx, ih (x :: done) (by simpa using h)]
    simp

/-- Sorting a slice that is sorted already leaves it as it is. -/
theorem sortSlice_of_sorted {α : Type} (key : α → Int) (l : List α)
    (h : l.Pairwise (fun a b => key b ≤ key a)) :
    sortSlice (fun a b => decide (key a > key b)) l = l := by
  have := sortLoop_of_sorted key l [] (by simpa using h)
  simpa [sortSlice] using this

theorem rankPods_idem (pods : List Pod) : rankPods (rankPods pods) = rankPods pods :=
  sortSlice_of_sorted (fun p : Pod => p.CreationTimestamp) _
    (sortSlice_sorted (fun p : Pod => p.CreationTimestamp) pods)

/-- At or after the deadline `SelectPod` returns; its `found` and `target` are
those of `podVerdict`, whatever the printer, the clock and the cluster are; the
slice is left sorted and the deadline is unchanged. -/
theorem SelectPod_verdict (k : Kubectl) (q : EventQuery) (u : untilNewestRunning)
    (clk : Clock) (pods : List Pod) (hnow : u.initialDelay ≤ clk.now) :
    ∃ r, SelectPod k q u clk (pods.map some) = .ok r ∧
      r.found = (podVerdict k pods).1 ∧ r.target = (podVerdict k pods).2 ∧
      r.slice = (rankPods pods).map some ∧ r.strategy.initialDelay = u.initialDelay := by
  cases hr : rankPods pods with
  | nil =>
    have hp : pods = [] := by
      by_contra hne
      exact sortSlice_ne_nil _ pods hne hr
    subst hp
    refine ⟨⟨false, none, none,
      { u with podInfoPrinter := (PrintNotFoundWarning q u.podInfoPrinter clk).1 },
      [], (PrintNotFoundWarning q u.podInfoPrinter clk).2⟩, ?_, ?_⟩
    · unfold SelectPod
      rw [if_neg (not_lt.mpr hnow), List.map_nil, if_pos List.length_nil]
    · simp [podVerdict, hr]
  | cons top rest =>
    have hsel := SelectPod_ranked k q u clk pods top rest hnow hr
    by_cases h1 : HasPodProblem k top = true
    · rw [if_pos h1] at hsel
      exact ⟨_, hsel, by simp [podVerdict, hr, h1]⟩
    · rw [if_neg h1] at hsel
      by_cases h2 : k.GetPodStatus top = "Running"
      · rw [if_neg (by simpa using h2)] at hsel
        exact ⟨_, hsel, by simp [podVerdict, hr, h1, h2]⟩
      · rw [if_pos (by simpa using h2)] at hsel
        exact ⟨_, hsel, by simp [podVerdict, hr, h1, h2]⟩

theorem podVerdict_rank (k : Kubectl) (pods : List Pod) :
    podVerdict k (rankPods pods) = podVerdict k pods := by
  unfold podVerdict
  rw [rankPods_idem]

/-- Whatever the sorting algorithm: a slice sorted newest first that is a
permutation of the candidates starts with the candidate that is strictly
newer than every other one, when there is one. -/
theorem sorted_head_unique {α : Type} (key : α → Int) (data l : List α) (top : α)
    (hp : l.Perm data) (hs : l.Pairwise (fun a b => key b ≤ key a))
    (ht : top ∈ data) (hu : ∀ x ∈ data, x ≠ top → key x < key top) :
    l.head? = some top := by
  cases l with
  | nil =>
    have := hp.mem_iff.mpr ht
    cases this
  | cons h rest =>
    by_cases he : h = top
    · rw [he]; rfl
    · exfalso
      have h1 : key h < key top := hu h (hp.mem_iff.mp (List.mem_cons_self _ _)) he
      rcases List.mem_cons.mp (hp.mem_iff.mpr ht) with h2 | h2
      · exact he h2.symm
      · have := (List.pairwise_cons.mp hs).1 top h2
        omega

/-! ## Repeated selection, whatever the order of equal creation times -/

theorem rankPairs_idem (cs : List (Pod × Option Container)) :
    rankPairs (rankPairs cs) = rankPairs cs :=
  sortSlice_of_sorted (fun c : Pod × Option Container => c.1.CreationTimestamp) _
    (sortSlice_sorted (fun c : Pod × Option Container => c.1.CreationTimestamp) cs)

/-- The verdict on a list whose sorted slice starts with `top` is the
classification of `top`. -/
theorem podVerdict_head (k : Kubectl) (l : List Pod) (top : Pod)
    (hl : (rankPods l).head? = some top) :
    podVerdict k l =
      if HasPodProblem k top then (false, none)
      else if k.GetPodStatus top ≠ "Running" then (false, none)
      else (true, some top) := by
  unfold podVerdict
  cases hr : rankPods l with
  | nil => rw [hr] at hl; cases hl
  | cons a rest =>
    rw [hr] at hl
    simp only [List.head?_cons, Option.some.injEq] at hl
    subst hl
    rfl

/-- C18, the claim fails for a candidate set given in two orders.  The pods
`a` (pending) and `b` (running) have the same creation time.  After the
deadline, `SelectPod` on `[a, b]` returns `(false, nil, nil)`, and on `[b, a]`,
the same candidates with the same statuses, it returns `(true, b, nil)`. -/
theorem C18_order_of_ties_changes_result :
    [samplePod "b" 100 "Running", samplePod "a" 100 "Pending"].Perm
      [samplePod "a" 100 "Pending", samplePod "b" 100 "Running"] ∧
    (samplePod "a" 100 "Pending").CreationTimestamp
      = (samplePod "b" 100 "Running").CreationTimestamp ∧
    SelectPod sampleKubectl noEvents sampleStrategy (atSecond 6)
        [some (samplePod "a" 100 "Pending"), some (samplePod "b" 100 "Running")]
      = .ok ⟨false, none, none, sampleStrategy,
          [some (samplePod "a" 100 "Pending"), some (samplePod "b" 100 "Running")], []⟩ ∧
    SelectPod sampleKubectl noEvents sampleStrategy (atSecond 6)
        [some (samplePod "b" 100 "Running"), some (samplePod "a" 100 "Pending")]
      = .ok ⟨true, some (samplePod "b" 100 "Running"), none, sampleStrategy,
          [some (samplePod "b" 100 "Running"), some (samplePod "a" 100 "Pending")], []⟩ :=
  ⟨List.Perm.swap _ _ _, rfl, rfl, rfl⟩

/-- C18, amended.  All calls are at or after the deadline; the printer state,
the clock readings and the answers of the cluster may differ between the two
calls.  (1) Two `SelectPod` calls on the same candidate list, in the same
order, return the same `found` and the same pod.  (2) For a list of at most
twelve candidates, ordering the ordered list again leaves it as it is, equal
creation times included, and a second `SelectPod` call on the slice the first
call sorted in place returns the same `found` and the same pod and leaves the
slice as it is.  (3) When the candidate `top` is strictly newer than every
other candidate, every order of the candidates has `top` first once sorted,
whatever the sorting algorithm, and `SelectPod` on any order of the
candidates returns the same `found` and the same pod, `top` when found. -/
theorem C18_repeated_selection_same_result (k : Kubectl) (q1 q2 : EventQuery)
    (u : untilNewestRunning) (clk1 clk2 : Clock) (pods strict reordered : List Pod)
    (top : Pod)
    (h1 : u.initialDelay ≤ clk1.now) (h2 : u.initialDelay ≤ clk2.now)
    (hperm : reordered.Perm strict) (htop : top ∈ strict)
    (hnewest : ∀ x ∈ strict, x ≠ top → x.CreationTimestamp < top.CreationTimestamp) :
    (∃ r1 r2, SelectPod k q1 u clk1 (pods.map some) = .ok r1 ∧
      SelectPod k q2 r1.strategy clk2 (pods.map some) = .ok r2 ∧
      r2.found = r1.found ∧ r2.target = r1.target) ∧
    (∀ short : List Pod, short.length ≤ 12 →
      rankPods (rankPods short) = rankPods short ∧
      ∃ r1 r2, SelectPod k q1 u clk1 (short.map some) = .ok r1 ∧
        SelectPod k q2 r1.strategy clk2 r1.slice = .ok r2 ∧
        r2.found = r1.found ∧ r2.target = r1.target ∧ r2.slice = r1.slice) ∧
    (∀ cs : List (Pod × Option Container), cs.length ≤ 12 →
      rankPairs (rankPairs cs) = rankPairs cs) ∧
    (∀ l : List Pod, l.Perm strict →
      l.Pairwise (fun a b => b.CreationTimestamp ≤ a.CreationTimestamp) →
        l.head? = some top) ∧
    (rankPods strict).head? = some top ∧
    (rankPods reordered).head? = some top ∧
    (∃ r1 r2, SelectPod k q1 u clk1 (strict.map some) = .ok r1 ∧
      SelectPod k q2 r1.strategy clk2 (reordered.map some) = .ok r2 ∧
      r2.found = r1.found ∧ r2.target = r1.target ∧
      (r1.found = true → r1.target = some top)) := by
  have hhead : ∀ l : List Pod, l.Perm strict →
      l.Pairwise (fun a b => b.CreationTimestamp ≤ a.CreationTimestamp) →
        l.head? = some top := fun l hp hs =>
    sorted_head_unique (fun p : Pod => p.CreationTimestamp) strict l top hp hs htop hnewest
  have hs1 : (rankPods strict).head? = some top :=
    hhead _ (sortSlice_perm _ strict) (sortSlice_sorted (fun p : Pod => p.CreationTimestamp) strict)
  have hs2 : (rankPods reordered).head? = some top :=
    hhead _ ((sortSlice_perm _ reordered).trans hperm)
      (sortSlice_sorted (fun p : Pod => p.CreationTimestamp) reordered)
  refine ⟨?_, fun short _ => ⟨rankPods_idem short, ?_⟩, fun cs _ => rankPairs_idem cs,
    hhead, hs1, hs2, ?_⟩
  · obtain ⟨r1, e1, f1, t1, _, d1⟩ := SelectPod_verdict k q1 u clk1 pods h1
    have hd : r1.strategy.initialDelay ≤ clk2.now := by rw [d1]; exact h2
    obtain ⟨r2, e2, f2, t2, _, _⟩ := SelectPod_verdict k q2 r1.strategy clk2 pods hd
    exact ⟨r1, r2, e1, e2, f2.trans f1.symm, t2.trans t1.symm⟩
  · obtain ⟨r1, e1, f1, t1, s1, d1⟩ := SelectPod_verdict k q1 u clk1 short h1
    have hd : r1.strategy.initialDelay ≤ clk2.now := by rw [d1]; exact h2
    obtain ⟨r2, e2, f2, t2, s2, _⟩ :=
      SelectPod_verdict k q2 r1.strategy clk2 (rankPods short) hd
    rw [podVerdict_rank] at f2 t2
    rw [rankPods_idem] at s2
    refine ⟨r1, r2, e1, ?_, f2.trans f1.symm, t2.trans t1.symm, s2.trans s1.symm⟩
    rw [s1]
    exact e2
  · obtain ⟨r1, e1, f1, t1, _, d1⟩ := SelectPod_verdict k q1 u clk1 strict h1
    have hd : r1.strategy.initialDelay ≤ clk2.now := by rw [d1]; exact h2
    obtain ⟨r2, e2, f2, t2, _, _⟩ := SelectPod_verdict k q2 r1.strategy clk2 reordered hd
    rw [podVerdict_head k strict top hs1] at f1 t1
    rw [podVerdict_head k reordered top hs2] at f2 t2
    refine ⟨r1, r2, e1, e2, f2.trans f1.symm, t2.trans t1.symm, ?_⟩
    intro hf
    rw [t1]
    rw [f1] at hf
    by_cases hc : HasPodProblem k top = true
    · rw [if_pos hc] at hf; cases hf
    · rw [if_neg hc] at hf ⊢
      by_cases hr : k.GetPodStatus top ≠ "Running"
      · rw [if_pos hr] at hf; cases hf
      · rw [if_neg hr]

theorem C18_repeated_selection_same_result_witness :
    sampleStrategy.initialDelay ≤ (atSecond 6).now ∧
    sampleStrategy.initialDelay ≤ (atSecond 7).now ∧
    tiedPods.length ≤ 12 ∧
    agedPods.reverse.Perm agedPods ∧
    samplePod "new" 100 "Running" ∈ agedPods ∧
    (∀ x ∈ agedPods, x ≠ samplePod "new" 100 "Running" →
      x.CreationTimestamp < (samplePod "new" 100 "Running").CreationTimestamp) ∧
    SelectPod sampleKubectl noEvents sampleStrategy (atSecond 6) (tiedPods.map some)
      = .ok ⟨false, none, none, sampleStrategy, tiedPods.map some, []⟩ ∧
    SelectPod sampleKubectl noEvents sampleStrategy (atSecond 6) (agedPods.map some)
      = .ok ⟨true, some (samplePod "new" 100 "Running"), none, sampleStrategy,
          agedPods.reverse.map some, []⟩ ∧
    SelectPod sampleKubectl failingQuery sampleStrategy (atSecond 7)
        (agedPods.reverse.map some)
      = .ok ⟨true, some (samplePod "new" 100 "Running"), none, sampleStrategy,
          agedPods.reverse.map some, []⟩ ∧
    (∃ r1 r2, SelectPod sampleKubectl noEvents sampleStrategy (atSecond 6)
        (tiedPods.map some) = .ok r1 ∧
      SelectPod sampleKubectl failingQuery r1.strategy (atSecond 7)
        (tiedPods.map some) = .ok r2 ∧
      r2.found = r1.found ∧ r2.target = r1.target) ∧
    (rankPods (rankPods tiedPods) = rankPods tiedPods ∧
      ∃ r1 r2, SelectPod sampleKubectl noEvents sampleStrategy (atSecond 6)
          (tiedPods.map some) = .ok r1 ∧
        SelectPod sampleKubectl failingQuery r1.strategy (atSecond 7) r1.slice = .ok r2 ∧
        r2.found = r1.found ∧ r2.target = r1.target ∧ r2.slice = r1.slice) ∧
    (∃ r1 r2, SelectPod sampleKubectl noEvents sampleStrategy (atSecond 6)
        (agedPods.map some) = .ok r1 ∧
      SelectPod sampleKubectl failingQuery r1.strategy (atSecond 7)
        (agedPods.reverse.map some) = .ok r2 ∧
      r2.found = r1.found ∧ r2.target = r1.target ∧
      (r1.found = true → r1.target = some (samplePod "new" 100 "Running"))) :=
  have hnew : ∀ x ∈ agedPods, x ≠ samplePod "new" 100 "Running" →
      x.CreationTimestamp < (samplePod "new" 100 "Running").CreationTimestamp := by
    intro x hx hne
    simp only [agedPods, List.mem_cons, List.mem_singleton, List.not_mem_nil, or_false] at hx
    rcases hx with hx | hx
    · subst hx; decide
    · exact absurd hx hne
  ⟨by decide, by decide, by decide, List.reverse_perm _, by decide, hnew,
    rfl, rfl, rfl,
    (C18_repeated_selection_same_result sampleKubectl noEvents failingQuery sampleStrategy
      (atSecond 6) (atSecond 7) tiedPods agedPods agedPods.reverse
      (samplePod "new" 100 "Running")
      (by decide) (by decide) (List.reverse_perm _) (by decide) hnew).1,
    (C18_repeated_selection_same_result sampleKubectl noEvents failingQuery sampleStrategy
      (atSecond 6) (atSecond 7) tiedPods agedPods agedPods.reverse
      (samplePod "new" 100 "Running")
      (by decide) (by decide) (List.reverse_perm _) (by decide) hnew).2.1 tiedPods (by decide),
    (C18_repeated_selection_same_result sampleKubectl noEvents failingQuery sampleStrategy
      (atSecond 6) (atSecond 7) tiedPods agedPods agedPods.reverse
      (samplePod "new" 100 "Running")
      (by decide) (by decide) (List.reverse_perm _) (by decide) hnew).2.2.2.2.2.2⟩

/-! ## A fresh strategy -/

theorem quiet_reports (k : Kubectl) (q : EventQuery) (u : PodInfoPrinter) (clk : Clock)
    (h : cooldownOver u clk.since = false) :
    (∀ pod, PrintPodInfo k q u clk pod = (u, [])) ∧
    PrintNotFoundWarning q u clk = (u, []) ∧
    (∀ pod, PrintPodWarning k u clk pod = (u, [])) := by
  refine ⟨fun pod => ?_, ?_, fun pod => ?_⟩
  · simp [PrintPodInfo, h]
  · simp [PrintNotFoundWarning, h]
  · simp [PrintPodWarning, h]

theorem SelectPod_quiet (k : Kubectl) (q : EventQuery) (u : untilNewestRunning) (clk : Clock)
    (pods : List (Option Pod)) (h : cooldownOver u.podInfoPrinter clk.since = false)
    (r : Returned Pod) (hr : SelectPod k q u clk pods = .ok r) :
    r.log = [] ∧ r.strategy = u := by
  obtain ⟨hi, hn, hw⟩ := quiet_reports k q u.podInfoPrinter clk h
  unfold SelectPod at hr
  simp only [hi, hn, hw] at hr
  split at hr
  · cases hr; exact ⟨rfl, rfl⟩
  · split at hr
    · cases hr; exact ⟨rfl, rfl⟩
    · split at hr
      · cases hr
      · split at hr
        · cases hr
        · cases hr
        · split at hr
          · cases hr; exact ⟨rfl, rfl⟩
          · split at hr <;> (cases hr; exact ⟨rfl, rfl⟩)

theorem SelectContainer_quiet (k : Kubectl) (q : EventQuery) (u : untilNewestRunning)
    (clk : Clock) (cs : List (Option SelectedPodContainer))
    (h : cooldownOver u.podInfoPrinter clk.since = false)
    (r : Returned SelectedPodContainer) (hr : SelectContainer k q u clk cs = .ok r) :
    r.log = [] ∧ r.strategy = u := by
  obtain ⟨hi, hn, hw⟩ := quiet_reports k q u.podInfoPrinter clk h
  unfold SelectContainer at hr
  simp only [hi, hn, hw] at hr
  split at hr
  · cases hr; exact ⟨rfl, rfl⟩
  · split at hr
    · cases hr; exact ⟨rfl, rfl⟩
    · split at hr
      · cases hr
      · split at hr
        · cases hr
        · cases hr
        · split at hr
          · cases hr
          · split at hr
            · cases hr; exact ⟨rfl, rfl⟩
            · split at hr
              · cases hr
              · cases hr; exact ⟨rfl, rfl⟩
              · cases hr; exact ⟨rfl, rfl⟩

/-- C19 (a fresh strategy stays quiet).  The constructor sets the deadline to
its first clock reading plus the initial delay and `lastWarning` to its second
clock reading plus the initial delay, which is not earlier.  On the strategy
it returns, a call of `SelectPod` or `SelectContainer` that tests the cooldown
no later than 10 seconds after the deadline logs nothing and leaves the
strategy, so the printer, as it was, whatever the candidates and the answer of
the cluster are; so does every report call on its printer. -/
theorem C19_fresh_strategy_quiet (k : Kubectl) (q : EventQuery) (t0 t1 d : Int)
    (client : Client) (ns : String) (clk : Clock) (pods : List (Option Pod))
    (cs : List (Option SelectedPodContainer))
    (hclock : t0 ≤ t1) (ht : clk.since ≤ t0 + d + Second * 10) :
    (NewUntilNewestRunningWaitingStrategy t0 t1 d client ns).initialDelay = t0 + d ∧
    (NewUntilNewestRunningWaitingStrategy t0 t1 d client ns).podInfoPrinter.lastWarning
      = t1 + d ∧
    (∀ r, SelectPod k q (NewUntilNewestRunningWaitingStrategy t0 t1 d client ns) clk pods
        = .ok r →
      r.log = [] ∧ r.strategy = NewUntilNewestRunningWaitingStrategy t0 t1 d client ns) ∧
    (∀ r, SelectContainer k q (NewUntilNewestRunningWaitingStrategy t0 t1 d client ns) clk cs
        = .ok r →
      r.log = [] ∧ r.strategy = NewUntilNewestRunningWaitingStrategy t0 t1 d client ns) ∧
    (∀ report : Report,
      runReport k (NewUntilNewestRunningWaitingStrategy t0 t1 d client ns).podInfoPrinter
          ⟨report, clk, q⟩
        = ((NewUntilNewestRunningWaitingStrategy t0 t1 d client ns).podInfoPrinter, [])) := by
  have hq : cooldownOver
      (NewUntilNewestRunningWaitingStrategy t0 t1 d client ns).podInfoPrinter clk.since
        = false := by
    have hn : ¬ cooldownOver
        (NewUntilNewestRunningWaitingStrategy t0 t1 d client ns).podInfoPrinter clk.since
          = true := by
      rw [cooldownOver_iff]
      simp only [NewUntilNewestRunningWaitingStrategy, Second] at ht ⊢
      omega
    simpa using hn
  refine ⟨rfl, rfl, fun r hr => SelectPod_quiet k q _ clk pods hq r hr,
    fun r hr => SelectContainer_quiet k q _ clk cs hq r hr, fun report => ?_⟩
  exact runReport_quiet k _ ⟨report, clk, q⟩ (by simp [hq])

theorem C19_fresh_strategy_quiet_witness :
    (0 : Int) ≤ 0 ∧ (atSecond 15).since ≤ 0 + 5 * Second + Second * 10 ∧
    SelectPod sampleKubectl warningQuery
        (NewUntilNewestRunningWaitingStrategy 0 0 (5 * Second) 7 "default") (atSecond 15)
        [some (samplePod "web-1" 100 "Pending")]
      = .ok ⟨false, none, none,
          NewUntilNewestRunningWaitingStrategy 0 0 (5 * Second) 7 "default",
          [some (samplePod "web-1" 100 "Pending")], []⟩ ∧
    (∀ r, SelectPod sampleKubectl warningQuery
        (NewUntilNewestRunningWaitingStrategy 0 0 (5 * Second) 7 "default") (atSecond 15)
        [some (samplePod "web-1" 100 "Pending")] = .ok r →
      r.log = [] ∧
        r.strategy = NewUntilNewestRunningWaitingStrategy 0 0 (5 * Second) 7 "default") :=
  ⟨by decide, by decide, rfl,
    (C19_fresh_strategy_quiet sampleKubectl warningQuery 0 0 (5 * Second) 7 "default"
      (atSecond 15) [some (samplePod "web-1" 100 "Pending")] [] (by decide) (by decide)).2.2.1⟩

end targetselector

namespace configure

/-! ## `NewKubectlDeployment` -/

theorem splitChars_ne_nil (sep : Char) (l : List Char) : splitChars sep l ≠ [] := by
  cases l with
  | nil => simp [splitChars]
  | cons c rest =>
    unfold splitChars
    split
    · simp
    · split <;> simp

theorem splitChars_length (sep : Char) (l : List Char) :
    (splitChars sep l).length = l.count sep + 1 := by
  induction l with
  | nil => simp [splitChars]
  | cons c rest ih =>
    unfold splitChars
    by_cases h : c = sep
    · subst h
      simp [ih]
    · rw [if_neg h]
      have hc : (c == sep) = false := by simpa using h
      cases hs : splitChars sep rest with
      | nil => exact absurd hs (splitChars_ne_nil sep rest)
      | cons piece pieces =>
        rw [hs] at ih
        simp [List.count_cons, hc, ← ih]

theorem splitChars_no_sep (sep : Char) (l : List Char) :
    ∀ p ∈ splitChars sep l, sep ∉ p := by
  induction l with
  | nil => simp [splitChars]
  | cons c rest ih =>
    intro p hp
    unfold splitChars at hp
    by_cases h : c = sep
    · rw [if_pos h] at hp
      rcases List.mem_cons.mp hp with h1 | h1
      · subst h1; simp
      · exact ih p h1
    · rw [if_neg h] at hp
      cases hs : splitChars sep rest with
      | nil => exact absurd hs (splitChars_ne_nil sep rest)
      | cons piece pieces =>
        rw [hs] at hp ih
        rcases List.mem_cons.mp hp with h1 | h1
        · subst h1
          intro hm
          rcases List.mem_cons.mp hm with h2 | h2
          · exact h h2.symm
          · exact ih piece (List.mem_cons_self _ _) h2
        · exact ih p (List.mem_cons_of_mem _ h1)

/-- The pieces, joined by the separator, are the sequence that was split. -/
theorem splitChars_join (sep : Char) (l : List Char) :
    List.intercalate [sep] (splitChars sep l) = l := by
  induction l with
  | nil => simp [splitChars, List.intercalate]
  | cons c rest ih =>
    unfold splitChars
    cases hs : splitChars sep rest with
    | nil => exact absurd hs (splitChars_ne_nil sep rest)
    | cons piece pieces =>
      rw [hs] at ih
      by_cases h : c = sep
      · subst h
        rw [if_pos rfl]
        simp only [List.intercalate, List.intersperse, List.flatten] at ih ⊢
        simp [ih]
      · rw [if_neg h]
        cases pieces with
        | nil =>
          simp only [List.intercalate, List.intersperse, List.flatten] at ih ⊢
          simp at ih ⊢
          exact ih
        | cons p2 ps =>
          simp only [List.intercalate, List.intersperse, List.flatten] at ih ⊢
          simp at ih ⊢
          exact ih

theorem trimLoop_eq (l acc : List String) : trimLoop l acc = acc ++ l.map TrimSpace := by
  induction l generalizing acc with
  | nil => simp [trimLoop]
  | cons s rest ih => simp [trimLoop, ih]

theorem trim_last (p : Char → Bool) (l : List Char) (c : Char)
    (h : ((l.dropWhile p).reverse.dropWhile p).reverse.getLast? = some c) : p c = false := by
  rw [List.getLast?_reverse] at h
  have := List.head?_dropWhile_not p (l.dropWhile p).reverse
  rw [h] at this
  exact this

theorem trim_initial (p : Char → Bool) (l : List Char) :
    ((l.dropWhile p).reverse.dropWhile p).reverse <+: l.dropWhile p := by
  have h := List.dropWhile_suffix (l := (l.dropWhile p).reverse) p
  have h2 := List.reverse_prefix.mpr h
  simpa using h2

theorem trim_head (p : Char → Bool) (l : List Char) (c : Char)
    (h : ((l.dropWhile p).reverse.dropWhile p).reverse.head? = some c) : p c = false := by
  obtain ⟨r, hr⟩ := trim_initial p l
  have hm : (l.dropWhile p).head? = some c := by
    rw [← hr]
    cases ht : ((l.dropWhile p).reverse.dropWhile p).reverse with
    | nil => rw [ht] at h; cases h
    | cons a t =>
      rw [ht] at h
      simpa using h
  have := List.head?_dropWhile_not p l
  rw [hm] at this
  exact this

theorem trim_mem (p : Char → Bool) (l : List Char) (c : Char)
    (h : c ∈ ((l.dropWhile p).reverse.dropWhile p).reverse) : c ∈ l :=
  (List.dropWhile_sublist p).subset ((trim_initial p l).subset h)

/-- A trimmed sequence with the white space that was removed: the sequence is
`lead ++ trimmed ++ trail`, where `lead` and `trail` hold only characters that
satisfy `p`. -/
theorem trim_split (p : Char → Bool) (l : List Char) :
    ∃ lead trail : List Char,
      l = lead ++ ((l.dropWhile p).reverse.dropWhile p).reverse ++ trail ∧
      (∀ c ∈ lead, p c = true) ∧ (∀ c ∈ trail, p c = true) := by
  refine ⟨l.takeWhile p, ((l.dropWhile p).reverse.takeWhile p).reverse, ?_, ?_, ?_⟩
  · have h1 : (l.dropWhile p).reverse.takeWhile p ++ (l.dropWhile p).reverse.dropWhile p
        = (l.dropWhile p).reverse := List.takeWhile_append_dropWhile p _
    have h2 : ((l.dropWhile p).reverse.dropWhile p).reverse
        ++ ((l.dropWhile p).reverse.takeWhile p).reverse = l.dropWhile p := by
      rw [← List.reverse_append, h1, List.reverse_reverse]
    rw [List.append_assoc, h2, List.takeWhile_append_dropWhile]
  · intro c hc
    exact (List.mem_takeWhile_imp hc)
  · intro c hc
    exact (List.mem_takeWhile_imp (List.mem_reverse.mp hc))

/-- C20 (`NewKubectlDeployment`).  For every `name` and `manifests` the
function returns a nil error and a configuration whose Name is `name` and
whose `Kubectl.Manifests` is the list `ms` described by: `manifests` is cut
into `pieces` at its commas (the pieces joined by commas are `manifests`, and
no piece contains a comma, so there is one piece more than there are commas);
`ms` has one entry per piece, in order, and each piece is its entry with
white space only before it and white space only after it, the entry itself
neither starting nor ending with white space.  So `ms` has one entry more than
`manifests` has commas, no entry contains a comma, and no entry starts or
ends with white space.  The empty string gives `[""]`; a string with spaces, a
tab, a line feed and an empty piece is evaluated. -/
theorem C20_NewKubectlDeployment_manifests (name manifests : String) :
    (∃ pieces ms : List String,
      NewKubectlDeployment name manifests
        = (some { Name := name, Kubectl := some { Manifests := ms } }, none) ∧
      List.intercalate [','] (pieces.map String.data) = manifests.data ∧
      (∀ piece ∈ pieces, ',' ∉ piece.data) ∧
      pieces.length = manifests.data.count ',' + 1 ∧
      List.Forall₂ (fun piece m => ∃ lead trail : List Char,
          piece.data = lead ++ m.data ++ trail ∧
          (∀ c ∈ lead, isSpace c = true) ∧ (∀ c ∈ trail, isSpace c = true) ∧
          (∀ c, m.data.head? = some c → isSpace c = false) ∧
          (∀ c, m.data.getLast? = some c → isSpace c = false)) pieces ms ∧
      ms.length = manifests.data.count ',' + 1 ∧
      (∀ m ∈ ms, ',' ∉ m.data ∧
        (∀ c, m.data.head? = some c → isSpace c = false) ∧
        (∀ c, m.data.getLast? = some c → isSpace c = false))) ∧
    NewKubectlDeployment name ""
      = (some { Name := name, Kubectl := some { Manifests := [""] } }, none) ∧
    NewKubectlDeployment name " a.yaml ,b/*.yaml,,\tc d\n"
      = (some { Name := name,
                Kubectl := some { Manifests := ["a.yaml", "b/*.yaml", "", "c d"] } }, none) ∧
    NewKubectlDeployment name " , "
      = (some { Name := name, Kubectl := some { Manifests := ["", ""] } }, none) := by
  refine ⟨?_, rfl, ?_, ?_⟩
  · refine ⟨Split manifests ',', (Split manifests ',').map TrimSpace, ?_, ?_, ?_, ?_, ?_, ?_, ?_⟩
    · simp [NewKubectlDeployment, trimLoop_eq]
    · have h := splitChars_join ',' manifests.data
      simpa [Split, Function.comp_def] using h
    · intro piece hp
      obtain ⟨l, hl, rfl⟩ := List.mem_map.mp hp
      exact splitChars_no_sep ',' manifests.data l hl
    · simp [Split, splitChars_length]
    · rw [List.forall₂_map_right_iff, List.forall₂_same]
      intro piece _
      obtain ⟨lead, trail, h1, h2, h3⟩ := trim_split isSpace piece.data
      exact ⟨lead, trail, h1, h2, h3, fun c hc => trim_head isSpace piece.data c hc,
        fun c hc => trim_last isSpace piece.data c hc⟩
    · simp [Split, splitChars_length]
    · intro m hm
      obtain ⟨s, hs, rfl⟩ := List.mem_map.mp hm
      obtain ⟨piece, hpiece, rfl⟩ := List.mem_map.mp hs
      refine ⟨?_, ?_, ?_⟩
      · intro hc
        exact splitChars_no_sep ',' manifests.data piece hpiece (trim_mem isSpace piece ',' hc)
      · intro c hc
        exact trim_head isSpace piece c hc
      · intro c hc
        exact trim_last isSpace piece c hc
  · rfl
  · rfl

end configure
